import Mathlib

/-!
# Verification of the versioned attribute graph engine (si)

A shallow embedding, in Lean 4, of the parts of the repository that the
specification's claims are about:

* `lib/dal/src/func/binding/attribute.rs` — the attribute-binding subsystem
  (`AttributeBinding::upsert_attribute_binding`,
  `update_attribute_binding_arguments`, `reset_attribute_binding`,
  `delete_attribute_prototype_and_args`, `enqueue_dvu_for_impacted_values`,
  `compile_attribute_types`, `assemble_attribute_output_location`,
  `find_eventual_parent`, `find_output_location`,
  `assemble_attribute_bindings`);
* `lib/dal/src/crypto.rs` — `SymmetricCryptoService` (`new`, `encrypt`,
  `decrypt`);
* `lib/rebaser-core/src/content_info.rs` — `ContentInfo`
  (`inject_into_headers`, `TryFrom<&HeaderMap>`, `MessageVersion::from_str`);
* the view-removal rebase behaviour exercised by
  `lib/dal/tests/integration_test/node_weight/view.rs`.

Rust functions become Lean functions.  Stateful operations on the workspace
graph (which in Rust mutate the snapshot behind `&DalContext`) become explicit
state-passing functions `Graph → Except Err α × Graph`: each mutation updates
the state in sequence and an early `?`-return keeps every mutation already
performed, exactly as in the Rust code, so that "the graph is unchanged after
an error" is a provable property of check ordering, not of the encoding.
Read-only helpers are `Graph → Except Err α`.

Helpers called by the embedded functions but whose own bodies live outside
the sampled sources (e.g. `AttributePrototype::eventual_parent`,
`FuncArgument::get_by_id_or_error`, the blake3 hash, libsodium's secretbox,
serde_json's parser) are modelled from the specification; each such
definition says so in its doc comment.
-/

namespace Si

/-! ## Identifiers -/

abbrev FuncId := Nat
abbrev FuncArgumentId := Nat
abbrev AttributePrototypeId := Nat
abbrev AttributePrototypeArgumentId := Nat
abbrev AttributeValueId := Nat
abbrev PropId := Nat
abbrev InputSocketId := Nat
abbrev OutputSocketId := Nat
abbrev SchemaVariantId := Nat
abbrev ComponentId := Nat

/-! ## Data model for the attribute-binding subsystem

Translated from `lib/dal/src/func/binding/attribute.rs` and the types it
consumes (`EventualParent`, `AttributeFuncDestination`,
`AttributeFuncArgumentSource`, `AttributeArgumentBinding`, `FuncKind`). -/

/-- Rust `FuncKind` (a closed enumeration in `lib/dal/src/func.rs`); only the
variants that the embedded code inspects are distinguished, the rest are
representative members of the enumeration. -/
inductive FuncKind where
  | attribute
  | authentication
  | codeGeneration
  | intrinsic
  | qualification
deriving DecidableEq, Repr

/-- Rust `EventualParent` from `lib/dal/src/func/binding.rs`. -/
inductive EventualParent where
  | schemaVariant (id : SchemaVariantId)
  | component (id : ComponentId)
deriving DecidableEq, Repr

/-- Rust `AttributeFuncDestination` from `lib/dal/src/func/binding.rs`:
the output location of an attribute prototype. -/
inductive AttributeFuncDestination where
  | prop (id : PropId)
  | outputSocket (id : OutputSocketId)
deriving DecidableEq, Repr

/-- Rust `AttributeFuncArgumentSource` from `lib/dal/src/func/binding.rs`:
the input source of one prototype argument. -/
inductive AttributeFuncArgumentSource where
  | prop (id : PropId)
  | inputSocket (id : InputSocketId)
  | staticArgument (value : String)
deriving DecidableEq, Repr

/-- Rust `AttributeArgumentBinding` from `lib/dal/src/func/binding.rs`. -/
structure AttributeArgumentBinding where
  func_argument_id : FuncArgumentId
  attribute_prototype_argument_id : Option AttributePrototypeArgumentId
  attribute_func_input_location : AttributeFuncArgumentSource
deriving DecidableEq, Repr

/-- Rust `WorkspaceSnapshotGraphError`, restricted to the variant the binding code
matches on (`NodeWithIdNotFound`). -/
inductive WorkspaceSnapshotGraphError where
  | nodeWithIdNotFound (raw_id : Nat)
deriving DecidableEq, Repr

/-- Rust `FuncArgumentError`: the error type of `FuncArgument::get_by_id_or_error`.
`workspaceSnapshot` corresponds to
`FuncArgumentError::WorkspaceSnapshot(WorkspaceSnapshotError::WorkspaceSnapshotGraph _)`;
`other` stands for every other variant of the Rust enumeration. -/
inductive FuncArgumentError where
  | workspaceSnapshot (e : WorkspaceSnapshotGraphError)
  | other (msg : String)
deriving DecidableEq, Repr

/-- Rust `FuncBindingError` from `lib/dal/src/func/binding.rs`, restricted to the
variants reachable from the embedded operations. -/
inductive FuncBindingError where
  | unexpectedFuncKind (kind : FuncKind)
  | malformedInput (msg : String)
  | lockedSchemaVariant (id : SchemaVariantId)
  | funcArgument (e : FuncArgumentError)
  | funcNotFound (id : FuncId)
  | attributePrototypeNotFound (id : AttributePrototypeId)
  | attributeValueNotFound (id : AttributeValueId)
  | propNotFound (id : PropId)
  | outputSocketNotFound (id : OutputSocketId)
  | schemaVariantNotFound (id : SchemaVariantId)
  | noIdentityFunc
  | missingValueSource (id : AttributePrototypeArgumentId)
  | serdeJson (msg : String)
deriving DecidableEq, Repr

abbrev FuncBindingResult (α : Type) := Except FuncBindingError α

/-! ### Graph state

The workspace snapshot, restricted to the node and edge kinds the embedded
operations read and write.  Nodes are records in lists; the `Prototype` edge
from a prop/output socket to its schema-level default prototype is the
`protoEdges` list; the `Prototype` edge from a component's attribute value to
its override prototype is the `overrideProto` field of the value. -/

/-- A `Func` node: its kind, and whether it is the `si:identity` intrinsic
(used by `Func::find_intrinsic(IntrinsicFunc::Identity)`). -/
structure FuncNode where
  id : FuncId
  kind : FuncKind
  isIdentity : Bool
deriving DecidableEq, Repr

/-- A `FuncArgument` node. -/
structure FuncArgumentNode where
  id : FuncArgumentId
  funcId : FuncId
  name : String
deriving DecidableEq, Repr

/-- A `SchemaVariant` node with its lock flag
(`SchemaVariant::is_locked`, the spec's lock predicate). -/
structure SchemaVariantNode where
  id : SchemaVariantId
  locked : Bool
deriving DecidableEq, Repr

/-- A `Prop` node: the schema variant owning it and its TypeScript type
(`Prop::ts_type`, which in Rust is computed from the prop kind; modelled as
stored data). -/
structure PropNode where
  id : PropId
  schemaVariantId : SchemaVariantId
  tsType : String
deriving DecidableEq, Repr

/-- An `OutputSocket` node. -/
structure OutputSocketNode where
  id : OutputSocketId
  schemaVariantId : SchemaVariantId
deriving DecidableEq, Repr

/-- A `Component` node. -/
structure ComponentNode where
  id : ComponentId
  schemaVariantId : SchemaVariantId
deriving DecidableEq, Repr

/-- An `AttributePrototype` node (`AttributePrototype { id }` plus its `Use`
edge to the function it binds). -/
structure AttributePrototypeNode where
  id : AttributePrototypeId
  funcId : FuncId
deriving DecidableEq, Repr

/-- An `AttributePrototypeArgument` node: its prototype, the function
argument it feeds, and its value source (set by the
`set_value_from_*` calls after creation; `none` until then). -/
structure AttributePrototypeArgumentNode where
  id : AttributePrototypeArgumentId
  prototypeId : AttributePrototypeId
  funcArgumentId : FuncArgumentId
  source : Option AttributeFuncArgumentSource
deriving DecidableEq, Repr

/-- An `AttributeValue` node: the component it belongs to, the destination
(prop or output socket) it materializes, and its component-level override
prototype edge, if any (`AttributeValue::set_component_prototype_id` sets it,
`AttributeValue::use_default_prototype` clears it). -/
structure AttributeValueNode where
  id : AttributeValueId
  componentId : ComponentId
  dest : AttributeFuncDestination
  overrideProto : Option AttributePrototypeId
deriving DecidableEq, Repr

/-- The workspace-snapshot graph restricted to the embedded subsystem, plus
the queue of attribute values enqueued for dependent-values update
(`ctx.add_dependent_values_and_enqueue`). -/
structure Graph where
  funcs : List FuncNode
  funcArgs : List FuncArgumentNode
  schemaVariants : List SchemaVariantNode
  props : List PropNode
  outputSockets : List OutputSocketNode
  components : List ComponentNode
  prototypes : List AttributePrototypeNode
  protoEdges : List (AttributeFuncDestination × AttributePrototypeId)
  apas : List AttributePrototypeArgumentNode
  attributeValues : List AttributeValueNode
  nextId : Nat
  dvuQueue : List AttributeValueId
deriving DecidableEq, Repr

/-! ## Read-only lookups -/

/-- Lookup of a `Func` node by id. -/
def Graph.funcById (s : Graph) (id : FuncId) : Option FuncNode :=
  s.funcs.find? (fun f => f.id == id)

/-- Lookup of a `FuncArgument` node by id. -/
def Graph.funcArgById (s : Graph) (id : FuncArgumentId) : Option FuncArgumentNode :=
  s.funcArgs.find? (fun f => f.id == id)

/-- Lookup of a `SchemaVariant` node by id. -/
def Graph.schemaVariantById (s : Graph) (id : SchemaVariantId) : Option SchemaVariantNode :=
  s.schemaVariants.find? (fun v => v.id == id)

/-- Lookup of a `Prop` node by id. -/
def Graph.propById (s : Graph) (id : PropId) : Option PropNode :=
  s.props.find? (fun p => p.id == id)

/-- Lookup of an `OutputSocket` node by id. -/
def Graph.outputSocketById (s : Graph) (id : OutputSocketId) : Option OutputSocketNode :=
  s.outputSockets.find? (fun o => o.id == id)

/-- Lookup of an `AttributePrototype` node by id. -/
def Graph.prototypeById (s : Graph) (id : AttributePrototypeId) : Option AttributePrototypeNode :=
  s.prototypes.find? (fun p => p.id == id)

/-- Lookup of an `AttributePrototypeArgument` node by id. -/
def Graph.apaById (s : Graph) (id : AttributePrototypeArgumentId) :
    Option AttributePrototypeArgumentNode :=
  s.apas.find? (fun a => a.id == id)

/-- Lookup of an `AttributeValue` node by id. -/
def Graph.attributeValueById (s : Graph) (id : AttributeValueId) : Option AttributeValueNode :=
  s.attributeValues.find? (fun a => a.id == id)

/-- Rust `Func::get_by_id_or_error`.  Modelled from the spec: a by-id node
lookup on the graph, failing when the node is absent (the function's body is
not among the sampled sources). -/
def Func.get_by_id_or_error (s : Graph) (id : FuncId) : FuncBindingResult FuncNode :=
  match s.funcById id with
  | some f => .ok f
  | none => .error (.funcNotFound id)

/-- Rust `FuncArgument::get_by_id_or_error`.  Modelled from the spec: a by-id
node lookup, failing with the graph-layer node-with-id-not-found error for
exactly the requested id when the node is absent (the function's body is not
among the sampled sources; the spec calls this the stale-reference lookup). -/
def FuncArgument.get_by_id_or_error (s : Graph) (id : FuncArgumentId) :
    Except FuncArgumentError FuncArgumentNode :=
  match s.funcArgById id with
  | some a => .ok a
  | none => .error (.workspaceSnapshot (.nodeWithIdNotFound id))

/-- Rust `SchemaVariant::is_locked`.  Modelled from the spec: the external
lock predicate `is_locked(SchemaVariantId) -> bool`. -/
def SchemaVariant.is_locked (s : Graph) (id : SchemaVariantId) : FuncBindingResult Bool :=
  match s.schemaVariantById id with
  | some v => .ok v.locked
  | none => .error (.schemaVariantNotFound id)

/-- Rust `EventualParent::error_if_locked`.  Modelled from the spec: a binding
mutation is rejected when the resolved parent is a locked schema variant
("return an error if the parent is a schema variant and it's locked"). -/
def EventualParent.error_if_locked (s : Graph) : EventualParent → FuncBindingResult Unit
  | .schemaVariant svId => do
      if (← SchemaVariant.is_locked s svId) then
        throw (.lockedSchemaVariant svId)
      else
        pure ()
  | .component _ => pure ()

/-- Rust `AttributePrototypeEventualParent` from
`lib/dal/src/attribute/prototype.rs`: the four-way classification returned by
`AttributePrototype::eventual_parent`. -/
inductive AttributePrototypeEventualParent where
  | component (componentId : ComponentId) (attributeValueId : AttributeValueId)
  | schemaVariantFromInputSocket (svId : SchemaVariantId) (inputSocketId : InputSocketId)
  | schemaVariantFromOutputSocket (svId : SchemaVariantId) (outputSocketId : OutputSocketId)
  | schemaVariantFromProp (svId : SchemaVariantId) (propId : PropId)
deriving DecidableEq, Repr

/-- Rust `AttributePrototype::eventual_parent`.  Modelled from the spec: walk
from the prototype to the nearest owning entity — a component-scoped
attribute value whose override-prototype edge points at it, or otherwise the
prop or output socket holding its `Prototype` edge (then up to that node's
schema variant); a prototype with no resolvable destination is dangling and
an error. -/
def AttributePrototype.eventual_parent (s : Graph) (id : AttributePrototypeId) :
    FuncBindingResult AttributePrototypeEventualParent :=
  match s.attributeValues.find? (fun av => av.overrideProto == some id) with
  | some av => .ok (.component av.componentId av.id)
  | none =>
    match s.protoEdges.find? (fun e => e.2 == id) with
    | some (.prop propId, _) =>
      match s.propById propId with
      | some p => .ok (.schemaVariantFromProp p.schemaVariantId propId)
      | none => .error (.propNotFound propId)
    | some (.outputSocket socketId, _) =>
      match s.outputSocketById socketId with
      | some o => .ok (.schemaVariantFromOutputSocket o.schemaVariantId socketId)
      | none => .error (.outputSocketNotFound socketId)
    | none => .error (.attributePrototypeNotFound id)

/-- Rust `AttributeValue::prop_id_for_id_or_error`.  Modelled from the spec:
the prop an attribute value materializes, an error when the value is missing
or does not sit under a prop. -/
def AttributeValue.prop_id_for_id_or_error (s : Graph) (id : AttributeValueId) :
    FuncBindingResult PropId :=
  match s.attributeValueById id with
  | some av =>
    match av.dest with
    | .prop propId => .ok propId
    | .outputSocket _ => .error (.malformedInput "attribute value is not for a prop")
  | none => .error (.attributeValueNotFound id)

/-- Rust `AttributeBinding::find_eventual_parent`
(`lib/dal/src/func/binding/attribute.rs`): collapse the four-way
`AttributePrototypeEventualParent` into `EventualParent`. -/
def AttributeBinding.find_eventual_parent (s : Graph) (attribute_prototype_id : AttributePrototypeId) :
    FuncBindingResult EventualParent := do
  let eventual_parent ← AttributePrototype.eventual_parent s attribute_prototype_id
  let parent :=
    match eventual_parent with
    | .component component_id _ => EventualParent.component component_id
    | .schemaVariantFromInputSocket schema_variant_id _ =>
        EventualParent.schemaVariant schema_variant_id
    | .schemaVariantFromOutputSocket schema_variant_id _ =>
        EventualParent.schemaVariant schema_variant_id
    | .schemaVariantFromProp schema_variant_id _ =>
        EventualParent.schemaVariant schema_variant_id
  pure parent

/-- Rust `AttributeBinding::find_output_location`
(`lib/dal/src/func/binding/attribute.rs`). -/
def AttributeBinding.find_output_location (s : Graph)
    (attribute_prototype_id : AttributePrototypeId) :
    FuncBindingResult AttributeFuncDestination := do
  let eventual_parent ← AttributePrototype.eventual_parent s attribute_prototype_id
  match eventual_parent with
  | .component _ attribute_value_id => do
      let prop_id ← AttributeValue.prop_id_for_id_or_error s attribute_value_id
      pure (AttributeFuncDestination.prop prop_id)
  | .schemaVariantFromOutputSocket _ output_socket_id =>
      pure (AttributeFuncDestination.outputSocket output_socket_id)
  | .schemaVariantFromProp _ prop_id =>
      pure (AttributeFuncDestination.prop prop_id)
  | .schemaVariantFromInputSocket _ _ =>
      throw (.malformedInput "()")

/-- Rust `AttributeBinding::assemble_attribute_output_location`
(`lib/dal/src/func/binding/attribute.rs`, lines 115-132): exactly one of
`prop_id` and `output_socket_id` must be supplied. -/
def AttributeBinding.assemble_attribute_output_location (prop_id : Option PropId)
    (output_socket_id : Option OutputSocketId) : FuncBindingResult AttributeFuncDestination :=
  match prop_id, output_socket_id with
  | none, some output_socket_id => .ok (.outputSocket output_socket_id)
  | some prop_id, none => .ok (.prop prop_id)
  | _, _ => .error (.malformedInput "cannot set more than one output location")

/-- Rust `AttributeFuncDestination::find_schema_variant`
(`lib/dal/src/func/binding.rs`).  Modelled from the spec: the schema variant
owning the destination prop or output socket. -/
def AttributeFuncDestination.find_schema_variant (s : Graph) :
    AttributeFuncDestination → FuncBindingResult SchemaVariantId
  | .prop propId =>
    match s.propById propId with
    | some p => .ok p.schemaVariantId
    | none => .error (.propNotFound propId)
  | .outputSocket socketId =>
    match s.outputSocketById socketId with
    | some o => .ok o.schemaVariantId
    | none => .error (.outputSocketNotFound socketId)

/-- Rust `AttributePrototype::find_for_prop` (with `key = None`).  Modelled
from the spec: the target of the prop's `Prototype` edge, if any. -/
def AttributePrototype.find_for_prop (s : Graph) (propId : PropId) :
    Option AttributePrototypeId :=
  (s.protoEdges.find? (fun e => e.1 == AttributeFuncDestination.prop propId)).map (fun e => e.2)

/-- Rust `AttributePrototype::find_for_output_socket`.  Modelled from the
spec: the target of the output socket's `Prototype` edge, if any. -/
def AttributePrototype.find_for_output_socket (s : Graph) (socketId : OutputSocketId) :
    Option AttributePrototypeId :=
  (s.protoEdges.find? (fun e => e.1 == AttributeFuncDestination.outputSocket socketId)).map
    (fun e => e.2)

/-- Rust `AttributePrototype::func_id`.  Modelled from the spec: the function
a prototype binds. -/
def AttributePrototype.func_id (s : Graph) (id : AttributePrototypeId) :
    FuncBindingResult FuncId :=
  match s.prototypeById id with
  | some p => .ok p.funcId
  | none => .error (.attributePrototypeNotFound id)

/-- Rust `AttributePrototypeArgument::list_ids_for_prototype`.  Modelled from
the spec: every argument node attached to the prototype. -/
def AttributePrototypeArgument.list_ids_for_prototype (s : Graph)
    (id : AttributePrototypeId) : List AttributePrototypeArgumentId :=
  (s.apas.filter (fun a => a.prototypeId == id)).map (fun a => a.id)

/-- Rust `AttributePrototype::list_ids_for_func_id`.  Modelled from the spec:
every prototype binding the function. -/
def AttributePrototype.list_ids_for_func_id (s : Graph) (funcId : FuncId) :
    List AttributePrototypeId :=
  (s.prototypes.filter (fun p => p.funcId == funcId)).map (fun p => p.id)

/-- Rust `AttributePrototype::attribute_value_id`.  Modelled from the spec:
the component-scoped attribute value controlled by the prototype, if the
prototype is a component-level override. -/
def AttributePrototype.attribute_value_id (s : Graph) (id : AttributePrototypeId) :
    Option AttributeValueId :=
  (s.attributeValues.find? (fun av => av.overrideProto == some id)).map (fun av => av.id)

/-- Controlling prototype of an attribute value: its component-level override
prototype when one exists, otherwise the schema-level default prototype of
its destination.  Modelled from the spec ("a prototype binds one function to
one destination ... an AttributeValue is the materialized, per-component
result location a prototype writes into"). -/
def controllingPrototype (s : Graph) (av : AttributeValueNode) : Option AttributePrototypeId :=
  match av.overrideProto with
  | some p => some p
  | none => (s.protoEdges.find? (fun e => e.1 == av.dest)).map (fun e => e.2)

/-- Rust `AttributePrototype::attribute_value_ids`.  Modelled from the spec:
"resolves all AttributeValues currently controlled by the prototype". -/
def AttributePrototype.attribute_value_ids (s : Graph) (id : AttributePrototypeId) :
    List AttributeValueId :=
  (s.attributeValues.filter (fun av => controllingPrototype s av == some id)).map (fun av => av.id)

/-- Rust `Component::attribute_values_for_prop_id`.  Modelled from the spec:
every attribute-value instance of the prop under the component. -/
def Component.attribute_values_for_prop_id (s : Graph) (componentId : ComponentId)
    (propId : PropId) : List AttributeValueId :=
  (s.attributeValues.filter
    (fun av => av.componentId == componentId && av.dest == AttributeFuncDestination.prop propId)).map
    (fun av => av.id)

/-- Rust `OutputSocket::component_attribute_value_for_output_socket_id`.
Modelled from the spec: the single component-scoped attribute value for the
socket. -/
def OutputSocket.component_attribute_value_for_output_socket_id (s : Graph)
    (socketId : OutputSocketId) (componentId : ComponentId) :
    FuncBindingResult AttributeValueId :=
  match s.attributeValues.find?
      (fun av => av.componentId == componentId
        && av.dest == AttributeFuncDestination.outputSocket socketId) with
  | some av => .ok av.id
  | none => .error (.attributeValueNotFound socketId)

/-- Rust `Func::find_intrinsic(IntrinsicFunc::Identity)`.  Modelled from the
spec: the built-in Identity function. -/
def Func.find_intrinsic_identity (s : Graph) : FuncBindingResult FuncId :=
  match s.funcs.find? (fun f => f.isIdentity) with
  | some f => .ok f.id
  | none => .error .noIdentityFunc

/-! ## Mutating operations

Mutators thread the graph explicitly: `Graph → FuncBindingResult α × Graph`.
An error result carries the state as mutated so far, mirroring the Rust
`?`-early-return against the live workspace snapshot. -/

/-- Rust `AttributePrototype::new`.  Modelled from the spec: creates a fresh
prototype node with a `Use` edge to the function. -/
def AttributePrototype.new (funcId : FuncId) (s : Graph) : AttributePrototypeNode × Graph :=
  let node : AttributePrototypeNode := { id := s.nextId, funcId := funcId }
  (node, { s with prototypes := s.prototypes ++ [node], nextId := s.nextId + 1 })

/-- Rust `AttributePrototypeArgument::remove`.  Modelled from the spec:
removes the argument node (and with it its edges). -/
def AttributePrototypeArgument.remove (id : AttributePrototypeArgumentId) (s : Graph) : Graph :=
  { s with apas := s.apas.filter (fun a => a.id != id) }

/-- Rust `AttributePrototype::remove`.  Modelled from the spec: tombstones
the prototype node, which detaches every incident edge — the `Prototype`
edge from its prop/socket destination, the override edges from attribute
values, and its argument nodes. -/
def AttributePrototype.remove (id : AttributePrototypeId) (s : Graph) : Graph :=
  { s with
    prototypes := s.prototypes.filter (fun p => p.id != id)
    protoEdges := s.protoEdges.filter (fun e => e.2 != id)
    apas := s.apas.filter (fun a => a.prototypeId != id)
    attributeValues := s.attributeValues.map
      (fun av => if av.overrideProto == some id then { av with overrideProto := none } else av) }

/-- Rust `Prop::add_edge_to_attribute_prototype` with
`EdgeWeightKind::Prototype(None)`.  Modelled from the spec: adds the
`Prototype` edge from the prop to the prototype. -/
def Prop.add_edge_to_attribute_prototype (propId : PropId) (prototypeId : AttributePrototypeId)
    (s : Graph) : Graph :=
  { s with protoEdges := s.protoEdges ++ [(AttributeFuncDestination.prop propId, prototypeId)] }

/-- Rust `OutputSocket::add_edge_to_attribute_prototype` with
`EdgeWeightKind::Prototype(None)`.  Modelled from the spec. -/
def OutputSocket.add_edge_to_attribute_prototype (socketId : OutputSocketId)
    (prototypeId : AttributePrototypeId) (s : Graph) : Graph :=
  { s with
    protoEdges := s.protoEdges ++ [(AttributeFuncDestination.outputSocket socketId, prototypeId)] }

/-- Rust `AttributeValue::set_component_prototype_id` (with no key).
Modelled from the spec: repoints the value's controlling-prototype override
edge at the given prototype. -/
def AttributeValue.set_component_prototype_id (attributeValueId : AttributeValueId)
    (prototypeId : AttributePrototypeId) (s : Graph) : FuncBindingResult Unit × Graph :=
  if s.attributeValues.any (fun av => av.id == attributeValueId) then
    (.ok (),
      { s with
        attributeValues := s.attributeValues.map
          (fun av =>
            if av.id == attributeValueId then { av with overrideProto := some prototypeId }
            else av) })
  else
    (.error (.attributeValueNotFound attributeValueId), s)

/-- Rust `AttributeValue::use_default_prototype`.  Modelled from the spec:
removes the component-level override so the value falls back to the schema
variant's default prototype. -/
def AttributeValue.use_default_prototype (attributeValueId : AttributeValueId) (s : Graph) :
    FuncBindingResult Unit × Graph :=
  if s.attributeValues.any (fun av => av.id == attributeValueId) then
    (.ok (),
      { s with
        attributeValues := s.attributeValues.map
          (fun av =>
            if av.id == attributeValueId then { av with overrideProto := none } else av) })
  else
    (.error (.attributeValueNotFound attributeValueId), s)

/-- Rust `AttributePrototype::update_func_by_id`.  Modelled from the spec:
repoints the prototype's `Use` edge at the given function. -/
def AttributePrototype.update_func_by_id (id : AttributePrototypeId) (funcId : FuncId)
    (s : Graph) : FuncBindingResult Unit × Graph :=
  if s.prototypes.any (fun p => p.id == id) then
    (.ok (),
      { s with
        prototypes := s.prototypes.map
          (fun p => if p.id == id then { p with funcId := funcId } else p) })
  else
    (.error (.attributePrototypeNotFound id), s)

/-- Rust `AttributePrototypeArgument::new`.  Modelled from the spec: creates
a fresh argument node under the prototype, its value source not yet set. -/
def AttributePrototypeArgument.new (prototypeId : AttributePrototypeId)
    (funcArgumentId : FuncArgumentId) (s : Graph) : AttributePrototypeArgumentNode × Graph :=
  let node : AttributePrototypeArgumentNode :=
    { id := s.nextId, prototypeId := prototypeId, funcArgumentId := funcArgumentId, source := none }
  (node, { s with apas := s.apas ++ [node], nextId := s.nextId + 1 })

/-- Shared body of the three Rust `AttributePrototypeArgument::set_value_from_*`
methods.  Modelled from the spec: records the argument's value source. -/
def AttributePrototypeArgument.set_value_from_source (id : AttributePrototypeArgumentId)
    (source : AttributeFuncArgumentSource) (s : Graph) : FuncBindingResult Unit × Graph :=
  if s.apas.any (fun a => a.id == id) then
    (.ok (),
      { s with
        apas := s.apas.map
          (fun a => if a.id == id then { a with source := some source } else a) })
  else
    (.error (.malformedInput "attribute prototype argument not found"), s)

/-- Rust `AttributePrototypeArgument::set_value_from_prop_id`. -/
def AttributePrototypeArgument.set_value_from_prop_id (id : AttributePrototypeArgumentId)
    (propId : PropId) (s : Graph) : FuncBindingResult Unit × Graph :=
  AttributePrototypeArgument.set_value_from_source id (.prop propId) s

/-- Rust `AttributePrototypeArgument::set_value_from_input_socket_id`. -/
def AttributePrototypeArgument.set_value_from_input_socket_id
    (id : AttributePrototypeArgumentId) (socketId : InputSocketId) (s : Graph) :
    FuncBindingResult Unit × Graph :=
  AttributePrototypeArgument.set_value_from_source id (.inputSocket socketId) s

/-- Rust `AttributePrototypeArgument::set_value_from_static_value`.  Its
`value` argument is the already-parsed `serde_json::Value`, modelled by the
text it was parsed from; the parse itself (`serde_json::from_str`) happens
at the call site inside the argument loops, as in the Rust code. -/
def AttributePrototypeArgument.set_value_from_static_value (id : AttributePrototypeArgumentId)
    (value : String) (s : Graph) : FuncBindingResult Unit × Graph :=
  AttributePrototypeArgument.set_value_from_source id (.staticArgument value) s

/-- Rust `ctx.add_dependent_values_and_enqueue`: hands the attribute-value
ids to the dependent-values-update queue.  Modelled from the spec
(`enqueue_for_recompute` hands identities to the external execution
queue). -/
def addDependentValuesAndEnqueue (avIds : List AttributeValueId) (s : Graph) : Graph :=
  { s with dvuQueue := s.dvuQueue ++ avIds }

/-- Rust `AttributeBinding::enqueue_dvu_for_impacted_values`
(`lib/dal/src/func/binding/attribute.rs`, lines 456-469). -/
def AttributeBinding.enqueue_dvu_for_impacted_values (attribute_prototype_id : AttributePrototypeId)
    (s : Graph) : FuncBindingResult Unit × Graph :=
  let impacted_avs := AttributePrototype.attribute_value_ids s attribute_prototype_id
  if impacted_avs.isEmpty then (.ok (), s)
  else (.ok (), addDependentValuesAndEnqueue impacted_avs s)

/-- Loop body of Rust `AttributeBinding::delete_attribute_prototype_args`:
removes each listed argument in turn. -/
def removeApas (ids : List AttributePrototypeArgumentId) (s : Graph) : Graph :=
  ids.foldl (fun g i => AttributePrototypeArgument.remove i g) s

/-- Rust `AttributeBinding::delete_attribute_prototype_args`
(`lib/dal/src/func/binding/attribute.rs`, lines 398-408). -/
def AttributeBinding.delete_attribute_prototype_args (attribute_prototype_id : AttributePrototypeId)
    (s : Graph) : Graph :=
  removeApas (AttributePrototypeArgument.list_ids_for_prototype s attribute_prototype_id) s

/-- Rust `AttributeBinding::delete_attribute_prototype_and_args`
(`lib/dal/src/func/binding/attribute.rs`, lines 384-397): the lock check,
then argument deletion, then prototype removal. -/
def AttributeBinding.delete_attribute_prototype_and_args
    (attribute_prototype_id : AttributePrototypeId) (s : Graph) :
    FuncBindingResult Unit × Graph :=
  match AttributeBinding.find_eventual_parent s attribute_prototype_id with
  | .error e => (.error e, s)
  | .ok eventual_parent =>
    match EventualParent.error_if_locked s eventual_parent with
    | .error e => (.error e, s)
    | .ok _ =>
      let s := AttributeBinding.delete_attribute_prototype_args attribute_prototype_id s
      (.ok (), AttributePrototype.remove attribute_prototype_id s)

/-! ## The external JSON parser

Modelled from the spec: `serde_json::from_str::<serde_json::Value>` is an
external library call whose failure aborts the argument loops
(`lib/dal/src/func/binding/attribute.rs`, lines 303 and 367, via `?`).  The
validity check below follows the JSON grammar with documented
simplifications (no string escapes, integer numbers, no trailing commas);
the parsed `serde_json::Value` is modelled by the text it was parsed
from. -/

/-- Whitespace skipping for the JSON model. -/
def skipWs : List Char → List Char
  | c :: cs =>
    if c = ' ' ∨ c = '\t' ∨ c = '\n' ∨ c = '\r' then skipWs cs else c :: cs
  | [] => []

/-- Consume one or more decimal digits. -/
def parseNumberTail : List Char → Option (List Char)
  | c :: rest => if c.isDigit then some (rest.dropWhile Char.isDigit) else none
  | [] => none

/-- Scan to the closing quote of a string literal (escapes not modelled). -/
def parseStringLit : List Char → Option (List Char)
  | '"' :: cs => some cs
  | _ :: cs => parseStringLit cs
  | [] => none

mutual

/-- One JSON value; the fuel bounds nesting depth. -/
def parseJsonValue : Nat → List Char → Option (List Char)
  | 0, _ => none
  | fuel + 1, cs =>
    match skipWs cs with
    | 'n' :: 'u' :: 'l' :: 'l' :: rest => some rest
    | 't' :: 'r' :: 'u' :: 'e' :: rest => some rest
    | 'f' :: 'a' :: 'l' :: 's' :: 'e' :: rest => some rest
    | '"' :: rest => parseStringLit rest
    | '-' :: rest => parseNumberTail rest
    | '[' :: rest => parseJsonElements fuel rest true
    | '\x7b' :: rest => parseJsonMembers fuel rest true
    | rest => parseNumberTail rest

/-- Array elements after `[`; `first` allows the immediate `]`. -/
def parseJsonElements : Nat → List Char → Bool → Option (List Char)
  | 0, _, _ => none
  | fuel + 1, cs, first =>
    match skipWs cs with
    | ']' :: rest => if first then some rest else none
    | cs' =>
      match parseJsonValue fuel cs' with
      | none => none
      | some rest =>
        match skipWs rest with
        | ',' :: rest2 => parseJsonElements fuel rest2 false
        | ']' :: rest2 => some rest2
        | _ => none

/-- Object members after the opening brace; `first` allows the immediate
closing brace. -/
def parseJsonMembers : Nat → List Char → Bool → Option (List Char)
  | 0, _, _ => none
  | fuel + 1, cs, first =>
    match skipWs cs with
    | '\x7d' :: rest => if first then some rest else none
    | '"' :: rest =>
      match parseStringLit rest with
      | none => none
      | some rest1 =>
        match skipWs rest1 with
        | ':' :: rest2 =>
          match parseJsonValue fuel rest2 with
          | none => none
          | some rest3 =>
            match skipWs rest3 with
            | ',' :: rest4 => parseJsonMembers fuel rest4 false
            | '\x7d' :: rest4 => some rest4
            | _ => none
        | _ => none
    | _ => none

end

/-- Validity of a string under the modelled JSON grammar. -/
def jsonValid (s : String) : Bool :=
  match parseJsonValue (s.data.length + 1) s.data with
  | some rest => (skipWs rest).isEmpty
  | none => false

/-- Modelled from the spec: `serde_json::from_str::<serde_json::Value>`; the
error carries the offending input, the parsed value is modelled by its
source text. -/
def serde_json_from_str (value : String) : Except String String :=
  if jsonValid value then .ok value else .error value

/-! ## The argument loop shared by upsert and update

The loop bodies at `lib/dal/src/func/binding/attribute.rs` lines 269-308 and
335-372 are textually identical; they are embedded once. -/

/-- Outcome of inspecting the `FuncArgument::get_by_id_or_error` result. -/
inductive ArgLookupAction where
  | proceed
  | skip
  | fail (e : FuncArgumentError)
deriving DecidableEq, Repr

/-- Dispatch on the stale-argument lookup, translated from the `match err`
at `lib/dal/src/func/binding/attribute.rs` lines 271-281: a
node-with-id-not-found error for exactly the requested id means the argument
is skipped (`continue`); any other error is returned. -/
def argLookupAction (func_argument_id : FuncArgumentId)
    (r : Except FuncArgumentError FuncArgumentNode) : ArgLookupAction :=
  match r with
  | .ok _ => .proceed
  | .error (.workspaceSnapshot (.nodeWithIdNotFound raw_id)) =>
      if raw_id == func_argument_id then .skip
      else .fail (.workspaceSnapshot (.nodeWithIdNotFound raw_id))
  | .error e => .fail e

/-- One iteration of the prototype-argument loop after the
`FuncArgument::get_by_id_or_error` result is in hand: the stale-reference
dispatch, then `AttributePrototypeArgument::new` and the `set_value_from_*`
dispatch on the input location — for a static argument the call site first
runs `serde_json::from_str` and aborts on its failure (attribute.rs lines
299-307 and 363-371). -/
def processOneArgAfterLookup (prototypeId : AttributePrototypeId)
    (arg : AttributeArgumentBinding) (r : Except FuncArgumentError FuncArgumentNode)
    (s : Graph) : FuncBindingResult Unit × Graph :=
  match argLookupAction arg.func_argument_id r with
  | .skip => (.ok (), s)
  | .fail e => (.error (.funcArgument e), s)
  | .proceed =>
    let (attribute_prototype_argument, s) :=
      AttributePrototypeArgument.new prototypeId arg.func_argument_id s
    match arg.attribute_func_input_location with
    | .prop prop_id =>
        AttributePrototypeArgument.set_value_from_prop_id
          attribute_prototype_argument.id prop_id s
    | .inputSocket input_socket_id =>
        AttributePrototypeArgument.set_value_from_input_socket_id
          attribute_prototype_argument.id input_socket_id s
    | .staticArgument value =>
        match serde_json_from_str value with
        | .error err => (.error (.serdeJson err), s)
        | .ok json =>
            AttributePrototypeArgument.set_value_from_static_value
              attribute_prototype_argument.id json s

/-- One iteration of the prototype-argument loop: the lookup, then the rest
of the body. -/
def processOneArg (prototypeId : AttributePrototypeId) (arg : AttributeArgumentBinding)
    (s : Graph) : FuncBindingResult Unit × Graph :=
  processOneArgAfterLookup prototypeId arg
    (FuncArgument.get_by_id_or_error s arg.func_argument_id) s

/-- The `for arg in &prototype_arguments` loop of upsert and update. -/
def processPrototypeArguments (prototypeId : AttributePrototypeId) :
    List AttributeArgumentBinding → Graph → FuncBindingResult Unit × Graph
  | [], s => (.ok (), s)
  | arg :: rest, s =>
    match processOneArg prototypeId arg s with
    | (.ok _, s) => processPrototypeArguments prototypeId rest s
    | (.error e, s) => (.error e, s)

/-- The `for attribute_value_id in attribute_value_ids` loop of the
Prop-by-Component branch of upsert (lines 225-233). -/
def setComponentPrototypeForAll (prototypeId : AttributePrototypeId) :
    List AttributeValueId → Graph → FuncBindingResult Unit × Graph
  | [], s => (.ok (), s)
  | avId :: rest, s =>
    match AttributeValue.set_component_prototype_id avId prototypeId s with
    | (.ok _, s) => setComponentPrototypeForAll prototypeId rest s
    | (.error e, s) => (.error e, s)

/-- Destination branching of `upsert_attribute_binding`
(`lib/dal/src/func/binding/attribute.rs`, lines 199-267): the four
(destination kind × parent kind) branches. -/
def upsertDestinationStep (eventual_parent : EventualParent)
    (output_location : AttributeFuncDestination) (prototypeId : AttributePrototypeId)
    (s : Graph) : FuncBindingResult Unit × Graph :=
  match output_location with
  | .prop prop_id =>
    match eventual_parent with
    | .schemaVariant _ =>
      match AttributePrototype.find_for_prop s prop_id with
      | some existing_prototype_id =>
        match AttributeBinding.delete_attribute_prototype_and_args existing_prototype_id s with
        | (.error e, s) => (.error e, s)
        | (.ok _, s) => (.ok (), Prop.add_edge_to_attribute_prototype prop_id prototypeId s)
      | none => (.ok (), Prop.add_edge_to_attribute_prototype prop_id prototypeId s)
    | .component component_id =>
      setComponentPrototypeForAll prototypeId
        (Component.attribute_values_for_prop_id s component_id prop_id) s
  | .outputSocket output_socket_id =>
    match eventual_parent with
    | .schemaVariant _ =>
      match AttributePrototype.find_for_output_socket s output_socket_id with
      | some existing_proto =>
        match AttributeBinding.delete_attribute_prototype_and_args existing_proto s with
        | (.error e, s) => (.error e, s)
        | (.ok _, s) =>
          (.ok (), OutputSocket.add_edge_to_attribute_prototype output_socket_id prototypeId s)
      | none =>
        (.ok (), OutputSocket.add_edge_to_attribute_prototype output_socket_id prototypeId s)
    | .component component_id =>
      match OutputSocket.component_attribute_value_for_output_socket_id s output_socket_id
          component_id with
      | .error e => (.error e, s)
      | .ok attribute_value_id =>
        AttributeValue.set_component_prototype_id attribute_value_id prototypeId s

/-- Rust `AttributeBinding::upsert_attribute_binding`
(`lib/dal/src/func/binding/attribute.rs`, lines 176-312): function-kind
check, eventual-parent resolution, lock check, prototype creation,
destination branching, argument loop, DVU enqueue. -/
def AttributeBinding.upsert_attribute_binding (func_id : FuncId)
    (eventual_parent : Option EventualParent) (output_location : AttributeFuncDestination)
    (prototype_arguments : List AttributeArgumentBinding) (s : Graph) :
    FuncBindingResult AttributePrototypeNode × Graph :=
  match Func.get_by_id_or_error s func_id with
  | .error e => (.error e, s)
  | .ok func =>
    if func.kind ≠ FuncKind.attribute then (.error (.unexpectedFuncKind func.kind), s)
    else
      match
        (match eventual_parent with
         | some eventual => Except.ok eventual
         | none =>
             (AttributeFuncDestination.find_schema_variant s output_location).map
               EventualParent.schemaVariant) with
      | .error e => (.error e, s)
      | .ok eventual_parent =>
        match EventualParent.error_if_locked s eventual_parent with
        | .error e => (.error e, s)
        | .ok _ =>
          let (attribute_prototype, s) := AttributePrototype.new func_id s
          match upsertDestinationStep eventual_parent output_location attribute_prototype.id s with
          | (.error e, s) => (.error e, s)
          | (.ok _, s) =>
            match processPrototypeArguments attribute_prototype.id prototype_arguments s with
            | (.error e, s) => (.error e, s)
            | (.ok _, s) =>
              match AttributeBinding.enqueue_dvu_for_impacted_values attribute_prototype.id s with
              | (.error e, s) => (.error e, s)
              | (.ok _, s) => (.ok attribute_prototype, s)

/-! ## Binding assembly -/

/-- Rust `AttributeBinding` struct (`lib/dal/src/func/binding/attribute.rs`,
lines 24-35). -/
structure AttributeBinding where
  func_id : FuncId
  attribute_prototype_id : AttributePrototypeId
  eventual_parent : EventualParent
  output_location : AttributeFuncDestination
  argument_bindings : List AttributeArgumentBinding
deriving DecidableEq, Repr

/-- Rust `FuncBinding`, restricted to the `Attribute` variant the embedded
operations produce. -/
inductive FuncBinding where
  | attribute (binding : AttributeBinding)
deriving DecidableEq, Repr

/-- Rust `AttributeArgumentBinding::assemble`.  Modelled from the spec: read
the argument node and its value source back into the request shape. -/
def AttributeArgumentBinding.assemble (s : Graph) (id : AttributePrototypeArgumentId) :
    FuncBindingResult AttributeArgumentBinding :=
  match s.apaById id with
  | none => .error (.malformedInput "attribute prototype argument not found")
  | some apa =>
    match apa.source with
    | some source =>
        .ok
          { func_argument_id := apa.funcArgumentId
            attribute_prototype_argument_id := some id
            attribute_func_input_location := source }
    | none => .error (.missingValueSource id)

/-- The inner argument-assembly loop of `assemble_attribute_bindings`. -/
def assembleArgumentBindings (s : Graph) :
    List AttributePrototypeArgumentId → FuncBindingResult (List AttributeArgumentBinding)
  | [] => .ok []
  | id :: rest => do
    let b ← AttributeArgumentBinding.assemble s id
    let bs ← assembleArgumentBindings s rest
    pure (b :: bs)

/-- The outer prototype loop of `assemble_attribute_bindings`. -/
def assembleBindingsForPrototypes (s : Graph) (func_id : FuncId) :
    List AttributePrototypeId → FuncBindingResult (List FuncBinding)
  | [] => .ok []
  | attribute_prototype_id :: rest => do
    let eventual_parent ← AttributeBinding.find_eventual_parent s attribute_prototype_id
    let output_location ← AttributeBinding.find_output_location s attribute_prototype_id
    let argument_bindings ←
      assembleArgumentBindings s
        (AttributePrototypeArgument.list_ids_for_prototype s attribute_prototype_id)
    let bs ← assembleBindingsForPrototypes s func_id rest
    pure
      (FuncBinding.attribute
        { func_id := func_id
          attribute_prototype_id := attribute_prototype_id
          eventual_parent := eventual_parent
          output_location := output_location
          argument_bindings := argument_bindings } :: bs)

/-- Rust `AttributeBinding::assemble_attribute_bindings`
(`lib/dal/src/func/binding/attribute.rs`, lines 134-163). -/
def AttributeBinding.assemble_attribute_bindings (s : Graph) (func_id : FuncId) :
    FuncBindingResult (List FuncBinding) :=
  assembleBindingsForPrototypes s func_id (AttributePrototype.list_ids_for_func_id s func_id)

/-- Rust `FuncBinding::for_func_id`.  Modelled from the spec: for an
attribute function its bindings are the assembled attribute bindings. -/
def FuncBinding.for_func_id (s : Graph) (func_id : FuncId) :
    FuncBindingResult (List FuncBinding) :=
  AttributeBinding.assemble_attribute_bindings s func_id

/-- Rust `AttributeBinding::update_attribute_binding_arguments`
(`lib/dal/src/func/binding/attribute.rs`, lines 321-376): lock check, delete
existing arguments, recreate them, enqueue DVU. -/
def AttributeBinding.update_attribute_binding_arguments
    (attribute_prototype_id : AttributePrototypeId)
    (prototype_arguments : List AttributeArgumentBinding) (s : Graph) :
    FuncBindingResult (List FuncBinding) × Graph :=
  match AttributeBinding.find_eventual_parent s attribute_prototype_id with
  | .error e => (.error e, s)
  | .ok eventual_parent =>
    match EventualParent.error_if_locked s eventual_parent with
    | .error e => (.error e, s)
    | .ok _ =>
      match AttributePrototype.func_id s attribute_prototype_id with
      | .error e => (.error e, s)
      | .ok func_id =>
        let s := AttributeBinding.delete_attribute_prototype_args attribute_prototype_id s
        match processPrototypeArguments attribute_prototype_id prototype_arguments s with
        | (.error e, s) => (.error e, s)
        | (.ok _, s) =>
          match AttributeBinding.enqueue_dvu_for_impacted_values attribute_prototype_id s with
          | (.error e, s) => (.error e, s)
          | (.ok _, s) => (FuncBinding.for_func_id s func_id, s)

/-- Rust `AttributeBinding::reset_attribute_binding`
(`lib/dal/src/func/binding/attribute.rs`, lines 420-452): lock check, then
either fall back to the default prototype (component case) or repoint the
prototype at the Identity intrinsic and drop its arguments, then enqueue
DVU. -/
def AttributeBinding.reset_attribute_binding (attribute_prototype_id : AttributePrototypeId)
    (s : Graph) : FuncBindingResult EventualParent × Graph :=
  match AttributeBinding.find_eventual_parent s attribute_prototype_id with
  | .error e => (.error e, s)
  | .ok eventual_parent =>
    match EventualParent.error_if_locked s eventual_parent with
    | .error e => (.error e, s)
    | .ok _ =>
      match
        (match AttributePrototype.attribute_value_id s attribute_prototype_id with
         | some attribute_value_id => AttributeValue.use_default_prototype attribute_value_id s
         | none =>
           match Func.find_intrinsic_identity s with
           | .error e => (.error e, s)
           | .ok identity_func_id =>
             match AttributePrototype.update_func_by_id attribute_prototype_id identity_func_id
                 s with
             | (.error e, s) => (.error e, s)
             | (.ok _, s) =>
               (.ok (),
                 removeApas
                   (AttributePrototypeArgument.list_ids_for_prototype s attribute_prototype_id)
                   s)) with
      | (.error e, s) => (.error e, s)
      | (.ok _, s) =>
        match AttributeBinding.enqueue_dvu_for_impacted_values attribute_prototype_id s with
        | (.error e, s) => (.error e, s)
        | (.ok _, s) => (.ok eventual_parent, s)

/-! ## Type inference: `compile_attribute_types`

Translated from `lib/dal/src/func/binding/attribute.rs`, lines 471-529.  The
Rust `HashMap<FuncArgumentId, Vec<String>>` is embedded as an association
list in insertion order (the Rust iteration order is unspecified; the
properties proved below do not depend on it). -/

/-- Rust `Prop::get_by_id_or_error`.  Modelled from the spec: by-id lookup. -/
def Prop.get_by_id_or_error (s : Graph) (id : PropId) : FuncBindingResult PropNode :=
  match s.propById id with
  | some p => .ok p
  | none => .error (.propNotFound id)

/-- Rust `prop.ts_type(ctx)`.  Modelled from the spec: the TypeScript type of
the prop (stored on the node in this embedding). -/
def Prop.ts_type (p : PropNode) : String := p.tsType

/-- The `argument_types` map of `compile_attribute_types`. -/
abbrev ArgTypesMap := List (FuncArgumentId × List String)

/-- The `Entry::Vacant` / push-if-absent update of `argument_types`
(lines 489-499): a fresh key gets a singleton list; an existing key has the
type appended only when not already present. -/
def insertArgType (m : ArgTypesMap) (k : FuncArgumentId) (t : String) : ArgTypesMap :=
  if m.any (fun kv => kv.1 == k) then
    m.map (fun kv =>
      if kv.1 == k then (kv.1, if kv.2.contains t then kv.2 else kv.2 ++ [t]) else kv)
  else m ++ [(k, [t])]

/-- Body of the `for arg in attribute.argument_bindings` loop (lines
482-514): prop-sourced arguments contribute their prop's ts type to
`argument_types`; the binding's output location contributes a deduplicated
output type ("any" for non-prop destinations). -/
def collectArg (s : Graph) (output_location : AttributeFuncDestination)
    (acc : ArgTypesMap × List String) (arg : AttributeArgumentBinding) :
    FuncBindingResult (ArgTypesMap × List String) := do
  let argument_types ←
    match arg.attribute_func_input_location with
    | .prop prop_id => do
        let p ← Prop.get_by_id_or_error s prop_id
        pure (insertArgType acc.1 arg.func_argument_id (Prop.ts_type p))
    | _ => pure acc.1
  let output_type ←
    match output_location with
    | .prop output_prop_id => do
        let p ← Prop.get_by_id_or_error s output_prop_id
        pure (Prop.ts_type p)
    | _ => pure "any"
  let output_ts_types :=
    if acc.2.contains output_type then acc.2 else acc.2 ++ [output_type]
  pure (argument_types, output_ts_types)

/-- The `for arg in attribute.argument_bindings` loop. -/
def collectArgs (s : Graph) (output_location : AttributeFuncDestination)
    (acc : ArgTypesMap × List String) :
    List AttributeArgumentBinding → FuncBindingResult (ArgTypesMap × List String)
  | [] => .ok acc
  | arg :: rest => do
    let acc ← collectArg s output_location acc arg
    collectArgs s output_location acc rest

/-- The `for binding in bindings` loop (the `if let Attribute` filter is
total here because the embedded `FuncBinding` has only that variant). -/
def collectBindings (s : Graph) (acc : ArgTypesMap × List String) :
    List FuncBinding → FuncBindingResult (ArgTypesMap × List String)
  | [] => .ok acc
  | FuncBinding.attribute b :: rest => do
    let acc ← collectArgs s b.output_location acc b.argument_bindings
    collectBindings s acc rest

/-- The `for (arg_id, ts_types) in argument_types` rendering loop (lines
518-523): one `name?: t1 | t2 | null;` line per argument. -/
def renderInputEntries (s : Graph) : ArgTypesMap → FuncBindingResult String
  | [] => .ok ""
  | (arg_id, ts_types) :: rest => do
    let func_arg ←
      match FuncArgument.get_by_id_or_error s arg_id with
      | .ok a => Except.ok a
      | .error e => Except.error (FuncBindingError.funcArgument e)
    let line := func_arg.name ++ "?: " ++ String.intercalate " | " ts_types ++ " | null;\n"
    let restStr ← renderInputEntries s rest
    pure (line ++ restStr)

/-- Rust `AttributeBinding::compile_attribute_types`
(`lib/dal/src/func/binding/attribute.rs`, lines 471-529). -/
def AttributeBinding.compile_attribute_types (func_id : FuncId) (s : Graph) :
    FuncBindingResult String × Graph :=
  ((do
      let bindings ← AttributeBinding.assemble_attribute_bindings s func_id
      let acc ← collectBindings s ([], []) bindings
      let entries ← renderInputEntries s acc.1
      let input_ts_types := "type Input = \x7b\n" ++ entries ++ "\x7d;"
      let output_ts := "type Output = " ++ String.intercalate " | " acc.2 ++ ";"
      pure (input_ts_types ++ "\n" ++ output_ts) :
    FuncBindingResult String), s)

end Si

namespace Si.Crypto

/-! ## Symmetric crypto service

Translated from `lib/dal/src/crypto.rs`.  Key material, nonces and hashes
are numbers; blake3 and libsodium's secretbox are external and modelled from
the spec. -/

abbrev Key := Nat
abbrev KeyHash := Nat
abbrev Nonce := Nat

/-- Modelled from the spec: the blake3 content hash of the symmetric key
material ("key identifiers are content hashes of the symmetric key
material").  An injective function of the key; modelled as the identity on
the key's numeric value. -/
def blake3Hash (k : Key) : KeyHash := k

/-- Modelled from the spec: a libsodium secretbox ciphertext, opaque to
everyone without the key. -/
structure Ciphertext where
  data : List Nat
  nonce : Nonce
  key : Key
deriving DecidableEq, Repr

/-- Modelled from the spec: `secretbox::seal`. -/
def secretboxSeal (message : List Nat) (nonce : Nonce) (key : Key) : Ciphertext :=
  { data := message, nonce := nonce, key := key }

/-- Modelled from the spec: `secretbox::open` — authenticated decryption,
succeeding exactly under the sealing key and nonce. -/
def secretboxOpen (c : Ciphertext) (nonce : Nonce) (key : Key) : Option (List Nat) :=
  if c.nonce == nonce && c.key == key then some c.data else none

/-- Rust `SymmetricCryptoError`, restricted to the two decryption-path
variants. -/
inductive SymmetricCryptoError where
  | decryptionFailed
  | missingDonkeyForHash
deriving DecidableEq, Repr

/-- Rust `SymmetricCryptoService`: the keyring (`donkeys: HashMap<Hash, Key>`
as an association list) and the active key's hash. -/
structure SymmetricCryptoService where
  donkeys : List (KeyHash × Key)
  active_key_hash : KeyHash
deriving DecidableEq, Repr

/-- HashMap insert: replace the value under an existing key, append
otherwise. -/
def insertKey (m : List (KeyHash × Key)) (h : KeyHash) (k : Key) : List (KeyHash × Key) :=
  if m.any (fun kv => kv.1 == h) then m.map (fun kv => if kv.1 == h then (h, k) else kv)
  else m ++ [(h, k)]

/-- HashMap get. -/
def lookupKey (m : List (KeyHash × Key)) (h : KeyHash) : Option Key :=
  (m.find? (fun kv => kv.1 == h)).map (fun kv => kv.2)

/-- Rust `SymmetricCryptoService::new` (`lib/dal/src/crypto.rs`, lines
85-100): hash the active key, insert it, then insert each extra key under
its own hash. -/
def SymmetricCryptoService.new (active_key : Key) (extra_keys : List Key) :
    SymmetricCryptoService :=
  let active_key_hash := blake3Hash active_key
  let map := insertKey [] active_key_hash active_key
  let map := extra_keys.foldl (fun m key => insertKey m (blake3Hash key) key) map
  { donkeys := map, active_key_hash := active_key_hash }

/-- Rust `SymmetricCryptoService::encrypt` (lines 106-118).  The generated
nonce is a parameter; `none` models the `expect` on an absent active key (a
bug by construction). -/
def SymmetricCryptoService.encrypt (svc : SymmetricCryptoService) (nonce : Nonce)
    (message : List Nat) : Option (Ciphertext × Nonce × KeyHash) :=
  (lookupKey svc.donkeys svc.active_key_hash).map
    (fun key => (secretboxSeal message nonce key, nonce, svc.active_key_hash))

/-- Rust `SymmetricCryptoService::decrypt` (lines 120-132): look the key up
by hash (`MissingDonkeyForHash` when absent), then open
(`DecryptionFailed` when authentication fails). -/
def SymmetricCryptoService.decrypt (svc : SymmetricCryptoService) (ciphertext : Ciphertext)
    (nonce : Nonce) (key_hash : KeyHash) : Except SymmetricCryptoError (List Nat) :=
  match lookupKey svc.donkeys key_hash with
  | none => .error .missingDonkeyForHash
  | some key =>
    match secretboxOpen ciphertext nonce key with
    | some m => .ok m
    | none => .error .decryptionFailed

end Si.Crypto

namespace Si.Rebaser

/-! ## Message envelope headers

Translated from `lib/rebaser-core/src/content_info.rs`.  A NATS `HeaderMap`
is an association list of strings. -/

abbrev HeaderMap := List (String × String)

/-- HeaderMap get. -/
def HeaderMap.get (m : HeaderMap) (name : String) : Option String :=
  (m.find? (fun kv => kv.1 == name)).map (fun kv => kv.2)

/-- HeaderMap insert: replace under an existing name, append otherwise. -/
def HeaderMap.insert (m : HeaderMap) (name value : String) : HeaderMap :=
  if m.any (fun kv => kv.1 == name) then
    m.map (fun kv => if kv.1 == name then (name, value) else kv)
  else m ++ [(name, value)]

/-- Header name `X-CONTENT-TYPE`. -/
def NATS_HEADER_CONTENT_TYPE_NAME : String := "X-CONTENT-TYPE"

/-- Header name `X-MESSAGE-TYPE`. -/
def NATS_HEADER_MESSAGE_TYPE_NAME : String := "X-MESSAGE-TYPE"

/-- Header name `X-MESSAGE-VERSION`. -/
def NATS_HEADER_MESSAGE_VERSION_NAME : String := "X-MESSAGE-VERSION"

/-- Rust `std::num::ParseIntError` kinds reachable from `u64::from_str`. -/
inductive ParseIntError where
  | empty
  | invalidDigit
  | posOverflow
deriving DecidableEq, Repr

/-- Rust `HeaderMapParseMessageInfoError`. -/
inductive HeaderMapParseMessageInfoError where
  | missingHeader (name : String)
  | parseVersion (e : ParseIntError)
deriving DecidableEq, Repr

/-- Rust `ContentInfo` — content type, message type, and integer message
version (`MessageVersion(u64)` as a `Nat` kept below `2^64`). -/
structure ContentInfo where
  content_type : String
  message_type : String
  message_version : Nat
deriving DecidableEq, Repr

/-- Numeric value of a digit string (little help for `u64FromStr`). -/
def parseDecValue (cs : List Char) : Nat :=
  cs.foldl (fun a c => a * 10 + (c.toNat - 48)) 0

/-- Modelled from the spec: Rust `u64::from_str` — an optional leading `+`,
then one or more decimal digits, value below `2^64`. -/
def u64FromStr (str : String) : Except ParseIntError Nat :=
  if str.data.isEmpty then .error .empty
  else
    let cs :=
      match str.data with
      | '+' :: rest => rest
      | cs => cs
    if cs.isEmpty then .error .invalidDigit
    else if cs.all Char.isDigit then
      let v := parseDecValue cs
      if v < 2 ^ 64 then .ok v else .error .posOverflow
    else .error .invalidDigit

/-- Decimal digit character. -/
def natDigitChar (d : Nat) : Char := Char.ofNat (48 + d)

/-- Decimal digit characters of a number, most significant first (Rust
`u64`'s `Display`, used by `self.message_version.to_string()`). -/
def natToDigitChars (n : Nat) : List Char :=
  if n < 10 then [natDigitChar n]
  else natToDigitChars (n / 10) ++ [natDigitChar (n % 10)]
termination_by n
decreasing_by exact Nat.div_lt_self (by omega) (by omega)

/-- Rust `MessageVersion::to_string()`. -/
def messageVersionToString (n : Nat) : String := String.mk (natToDigitChars n)

/-- Rust `ContentInfo::inject_into_headers`
(`lib/rebaser-core/src/content_info.rs`, lines 32-39). -/
def ContentInfo.inject_into_headers (ci : ContentInfo) (headers : HeaderMap) : HeaderMap :=
  let headers := HeaderMap.insert headers NATS_HEADER_CONTENT_TYPE_NAME ci.content_type
  let headers := HeaderMap.insert headers NATS_HEADER_MESSAGE_TYPE_NAME ci.message_type
  HeaderMap.insert headers NATS_HEADER_MESSAGE_VERSION_NAME
    (messageVersionToString ci.message_version)

/-- Rust `impl TryFrom<&HeaderMap> for ContentInfo`
(`lib/rebaser-core/src/content_info.rs`, lines 42-64). -/
def ContentInfo.tryFromHeaders (map : HeaderMap) :
    Except HeaderMapParseMessageInfoError ContentInfo := do
  let content_type ←
    match HeaderMap.get map NATS_HEADER_CONTENT_TYPE_NAME with
    | some v => Except.ok v
    | none =>
        Except.error
          (HeaderMapParseMessageInfoError.missingHeader NATS_HEADER_CONTENT_TYPE_NAME)
  let message_type ←
    match HeaderMap.get map NATS_HEADER_MESSAGE_TYPE_NAME with
    | some v => Except.ok v
    | none =>
        Except.error
          (HeaderMapParseMessageInfoError.missingHeader NATS_HEADER_MESSAGE_TYPE_NAME)
  let raw_version ←
    match HeaderMap.get map NATS_HEADER_MESSAGE_VERSION_NAME with
    | some v => Except.ok v
    | none =>
        Except.error
          (HeaderMapParseMessageInfoError.missingHeader NATS_HEADER_MESSAGE_VERSION_NAME)
  let message_version ←
    (u64FromStr raw_version).mapError HeaderMapParseMessageInfoError.parseVersion
  pure
    { content_type := content_type
      message_type := message_type
      message_version := message_version }

end Si.Rebaser

namespace Si.GraphStore

/-! ## The graph store: tombstoning removal and reachability

Modelled from the spec, section 4.1 (the graph substrate itself is not among
the sampled sources): `remove_node` tombstones — the node's identity stays
resolvable but it is excluded from the version's reachable set. -/

/-- A graph version: node identities, the tombstone set, directed edges. -/
structure GraphVersion where
  nodes : List Nat
  tombstoned : List Nat
  edges : List (Nat × Nat)
deriving DecidableEq, Repr

/-- Liveness: present and not tombstoned. -/
def GraphVersion.live (g : GraphVersion) (n : Nat) : Bool :=
  g.nodes.contains n && !(g.tombstoned.contains n)

/-- Set-like insertion. -/
def insertNew (l : List Nat) (n : Nat) : List Nat :=
  if l.contains n then l else n :: l

/-- Modelled from the spec: `remove_node(node_id)` tombstones the node. -/
def remove_node (g : GraphVersion) (n : Nat) : GraphVersion :=
  { g with tombstoned := insertNew g.tombstoned n }

/-- Live successors of a node. -/
def succs (g : GraphVersion) (n : Nat) : List Nat :=
  (g.edges.filter (fun e => e.1 == n)).map (fun e => e.2)

/-- Fuelled worklist traversal collecting live reachable nodes. -/
def reachableAux (g : GraphVersion) : Nat → List Nat → List Nat → List Nat
  | 0, _, visited => visited
  | _ + 1, [], visited => visited
  | fuel + 1, x :: rest, visited =>
    if visited.contains x then reachableAux g fuel rest visited
    else if g.live x then reachableAux g fuel (succs g x ++ rest) (x :: visited)
    else reachableAux g fuel rest visited

/-- Modelled from the spec: `reachable_from(roots)` — the set of live nodes
reachable from the roots; tombstoned nodes are excluded and not traversed. -/
def reachable_from (g : GraphVersion) (roots : List Nat) : List Nat :=
  reachableAux g ((g.nodes.length + 1) * (g.edges.length + 1) + roots.length + 1) roots []

end Si.GraphStore

namespace Si.ViewMerge

/-! ## View-removal rebase behaviour

The `correct_transforms` handling of view removal is not among the sampled
sources; its observable behaviour is fixed by the integration tests in
`lib/dal/tests/integration_test/node_weight/view.rs`
(`correct_transforms_remove_view_all_geometries_removed`,
`correct_transforms_remove_view_already_removed_view`,
`correct_transforms_remove_view_not_all_geometries_removed`,
`correct_transforms_remove_view_no_other_views`). -/

/-- Views and the geometries they contain: `views` are view node ids,
`geometries` are `(geometry id, containing view id)` pairs. -/
structure ViewState where
  views : List Nat
  geometries : List (Nat × Nat)
deriving DecidableEq, Repr

/-- Modelled from the spec and fixed by the integration tests named above: a
change set's `RemoveView v` transform applied against the current base.
When the base still holds geometries inside `v` (for example a component
another change set created there), the removal is discarded and the base is
unchanged — the tests assert the view count stays at 2 and the geometry
stays in the removed-then-restored view.  Only when no geometry remains in
`v` does the removal proceed; removing an absent view is a silent no-op. -/
def applyRemoveView (base : ViewState) (v : Nat) : ViewState :=
  if base.geometries.any (fun gv => gv.2 == v) then base
  else { views := base.views.filter (fun w => w != v), geometries := base.geometries }

end Si.ViewMerge

/-! ## Concrete fixtures used by witnesses and scenario theorems -/

namespace Si

/-- A graph with a locked schema variant 100 owning prop 5, whose default
prototype 7 binds the attribute function 1. -/
def lockedFixture : Graph :=
  { funcs := [{ id := 1, kind := .attribute, isIdentity := false }]
    funcArgs := []
    schemaVariants := [{ id := 100, locked := true }]
    props := [{ id := 5, schemaVariantId := 100, tsType := "string" }]
    outputSockets := []
    components := []
    prototypes := [{ id := 7, funcId := 1 }]
    protoEdges := [(.prop 5, 7)]
    apas := []
    attributeValues := []
    nextId := 50
    dvuQueue := [] }

end Si

namespace Si

/-- Specification of the argument loop's created nodes: one
`AttributePrototypeArgument` per requested argument whose function argument
exists in `funcArgs`, with ids allocated consecutively from `nid` and the
value source recorded; stale requests contribute nothing. -/
def createdApas (funcArgs : List FuncArgumentNode) (prototypeId : AttributePrototypeId) :
    List AttributeArgumentBinding → Nat → List AttributePrototypeArgumentNode
  | [], _ => []
  | arg :: rest, nid =>
    if (funcArgs.find? (fun f => f.id == arg.func_argument_id)).isSome then
      { id := nid, prototypeId := prototypeId, funcArgumentId := arg.func_argument_id,
        source := some arg.attribute_func_input_location } ::
        createdApas funcArgs prototypeId rest (nid + 1)
    else createdApas funcArgs prototypeId rest nid

/-- Specification predicate: every static argument in the request carries
text that parses as JSON, so the loops' `serde_json::from_str` calls all
succeed. -/
def staticArgsValid (args : List AttributeArgumentBinding) : Bool :=
  args.all
    (fun arg =>
      match arg.attribute_func_input_location with
      | .staticArgument v => jsonValid v
      | _ => true)

/-- Number of requested arguments whose function argument exists. -/
def countPresentArgs (funcArgs : List FuncArgumentNode)
    (args : List AttributeArgumentBinding) : Nat :=
  (args.filter
    (fun arg => (funcArgs.find? (fun f => f.id == arg.func_argument_id)).isSome)).length

end Si

namespace Si

/-- A graph with unlocked schema variant 100, attribute function 1 with
argument 2, prop 5 with default prototype 7 (one existing argument node 9),
and component 20 with an attribute value 30 materializing prop 5 under the
default prototype. -/
def upsertFixture : Graph :=
  { funcs := [{ id := 1, kind := .attribute, isIdentity := false }]
    funcArgs := [{ id := 2, funcId := 1, name := "arg1" }]
    schemaVariants := [{ id := 100, locked := false }]
    props := [{ id := 5, schemaVariantId := 100, tsType := "string" },
              { id := 3, schemaVariantId := 100, tsType := "number" }]
    outputSockets := []
    components := [{ id := 20, schemaVariantId := 100 }]
    prototypes := [{ id := 7, funcId := 1 }]
    protoEdges := [(.prop 5, 7)]
    apas := [{ id := 9, prototypeId := 7, funcArgumentId := 2, source := some (.prop 3) }]
    attributeValues := [{ id := 30, componentId := 20, dest := .prop 5, overrideProto := none }]
    nextId := 50
    dvuQueue := [] }

/-- A graph with unlocked schema variant 100, attribute function 1 with
argument 2, output socket 6 with default prototype 8, and component 20 with
an attribute value 31 materializing socket 6 under the default prototype. -/
def upsertSocketFixture : Graph :=
  { funcs := [{ id := 1, kind := .attribute, isIdentity := false }]
    funcArgs := [{ id := 2, funcId := 1, name := "arg1" }]
    schemaVariants := [{ id := 100, locked := false }]
    props := [{ id := 3, schemaVariantId := 100, tsType := "number" }]
    outputSockets := [{ id := 6, schemaVariantId := 100 }]
    components := [{ id := 20, schemaVariantId := 100 }]
    prototypes := [{ id := 8, funcId := 1 }]
    protoEdges := [(.outputSocket 6, 8)]
    apas := []
    attributeValues :=
      [{ id := 31, componentId := 20, dest := .outputSocket 6, overrideProto := none }]
    nextId := 50
    dvuQueue := [] }

/-- A graph like `upsertFixture` without the attribute value, used for
exercising `update_attribute_binding_arguments` with a stale argument. -/
def updateFixture : Graph :=
  { funcs := [{ id := 1, kind := .attribute, isIdentity := false }]
    funcArgs := [{ id := 2, funcId := 1, name := "arg1" }]
    schemaVariants := [{ id := 100, locked := false }]
    props := [{ id := 5, schemaVariantId := 100, tsType := "string" },
              { id := 3, schemaVariantId := 100, tsType := "number" }]
    outputSockets := []
    components := []
    prototypes := [{ id := 7, funcId := 1 }]
    protoEdges := [(.prop 5, 7)]
    apas := [{ id := 9, prototypeId := 7, funcArgumentId := 2, source := some (.prop 3) }]
    attributeValues := []
    nextId := 50
    dvuQueue := [] }

/-- The argument-binding request used by the stale-argument witness: one
binding naming the existing function argument 2, one naming the absent 33. -/
def staleArgsFixture : List AttributeArgumentBinding :=
  [{ func_argument_id := 2, attribute_prototype_argument_id := none,
     attribute_func_input_location := .inputSocket 11 },
   { func_argument_id := 33, attribute_prototype_argument_id := none,
     attribute_func_input_location := .prop 3 },
   { func_argument_id := 2, attribute_prototype_argument_id := none,
     attribute_func_input_location := .staticArgument "3" }]

/-- A graph for the type-inference scenario: two prototypes 7 and 8 both
bind function 1; prototype 7 writes prop 5 (ts type "string") with an
argument sourced from prop 3 ("string"), prototype 8 writes output socket 6
with an argument sourced from prop 4 ("number"), both through the single
function argument 2 named "arg1". -/
def compileFixture : Graph :=
  { funcs := [{ id := 1, kind := .attribute, isIdentity := false }]
    funcArgs := [{ id := 2, funcId := 1, name := "arg1" }]
    schemaVariants := [{ id := 100, locked := false }]
    props := [{ id := 3, schemaVariantId := 100, tsType := "string" },
              { id := 4, schemaVariantId := 100, tsType := "number" },
              { id := 5, schemaVariantId := 100, tsType := "string" }]
    outputSockets := [{ id := 6, schemaVariantId := 100 }]
    components := []
    prototypes := [{ id := 7, funcId := 1 }, { id := 8, funcId := 1 }]
    protoEdges := [(.prop 5, 7), (.outputSocket 6, 8)]
    apas := [{ id := 9, prototypeId := 7, funcArgumentId := 2, source := some (.prop 3) },
             { id := 10, prototypeId := 8, funcArgumentId := 2, source := some (.prop 4) }]
    attributeValues := []
    nextId := 50
    dvuQueue := [] }

end Si

/-! # Theorems -/

namespace Si.ViewMerge

/-- Helper: `applyRemoveView` is idempotent. -/
theorem applyRemoveView_idem (base : ViewState) (v : Nat) :
    applyRemoveView (applyRemoveView base v) v = applyRemoveView base v := by
  unfold applyRemoveView
  by_cases h : base.geometries.any (fun gv => gv.2 == v) = true
  · simp [h]
  · simp only [Bool.not_eq_true] at h
    simp only [h, Bool.false_eq_true, if_false]
    simp [h, List.filter_filter]

end Si.ViewMerge

namespace Si.GraphStore

/-- Helper: a node inserted by `insertNew` is a member afterwards. -/
theorem mem_insertNew (l : List Nat) (n : Nat) : n ∈ insertNew l n := by
  unfold insertNew
  by_cases h : n ∈ l
  · simp [h]
  · simp [h]

/-- Helper: `insertNew` is idempotent. -/
theorem insertNew_idem (l : List Nat) (n : Nat) : insertNew (insertNew l n) n = insertNew l n := by
  have h := mem_insertNew l n
  unfold insertNew
  by_cases hl : n ∈ l
  · simp [hl]
  · simp [hl, mem_insertNew]

/-- Helper: every node the worklist traversal collects is live. -/
theorem reachableAux_live (g : GraphVersion) (fuel : Nat) (frontier visited : List Nat)
    (hv : ∀ m ∈ visited, g.live m = true) :
    ∀ m ∈ reachableAux g fuel frontier visited, g.live m = true := by
  induction fuel generalizing frontier visited with
  | zero => simpa [reachableAux] using hv
  | succ fuel ih =>
    match frontier with
    | [] => simpa [reachableAux] using hv
    | x :: rest =>
      by_cases hx : x ∈ visited
      · simpa [reachableAux, hx] using ih rest visited hv
      · by_cases hl : g.live x = true
        · have hv' : ∀ m ∈ x :: visited, g.live m = true := by
            intro m hm
            rcases List.mem_cons.mp hm with h | h
            · exact h ▸ hl
            · exact hv m h
          simpa [reachableAux, hx, hl] using ih (succs g x ++ rest) (x :: visited) hv'
        · simpa [reachableAux, hx, hl] using ih rest visited hv

/-- Helper: a removed (tombstoned) node is not live. -/
theorem live_remove_node (g : GraphVersion) (n : Nat) :
    (remove_node g n).live n = false := by
  simp [GraphVersion.live, remove_node, mem_insertNew]

/-- Helper: a removed node is excluded from the reachable set. -/
theorem not_mem_reachable_remove (g : GraphVersion) (n : Nat) (roots : List Nat) :
    n ∉ reachable_from (remove_node g n) roots := by
  intro hmem
  have := reachableAux_live (remove_node g n) _ roots [] (by intro m hm; cases hm) n hmem
  rw [live_remove_node] at this
  cases this

end Si.GraphStore

namespace Si

/-- C5: removing an already-removed entity is an idempotent no-op — for every
graph and node `n` removed from it, the resulting version's reachable set
never contains `n`; removing `n` again produces the same graph; and
re-applying a view removal (a second change set re-removing an already
removed view) produces no error and leaves the remaining views unchanged. -/
theorem c5_remove_already_removed_idempotent :
    (∀ (g : GraphStore.GraphVersion) (n : Nat) (roots : List Nat),
      n ∉ GraphStore.reachable_from (GraphStore.remove_node g n) roots) ∧
    (∀ (g : GraphStore.GraphVersion) (n : Nat),
      GraphStore.remove_node (GraphStore.remove_node g n) n = GraphStore.remove_node g n) ∧
    (∀ (vs : ViewMerge.ViewState) (v : Nat),
      ViewMerge.applyRemoveView (ViewMerge.applyRemoveView vs v) v =
        ViewMerge.applyRemoveView vs v) := by
  refine ⟨?_, ?_, ?_⟩
  · intro g n roots
    exact GraphStore.not_mem_reachable_remove g n roots
  · intro g n
    simp [GraphStore.remove_node, GraphStore.insertNew_idem]
  · intro vs v
    exact ViewMerge.applyRemoveView_idem vs v

/-- C2 counterexample: against a base holding views `[1, 2]` (1 the default
view) and a geometry `10` created inside view `2` by another change set,
applying a change set's removal of view `2` leaves the base unchanged — view
`2` is still present and geometry `10` is still anchored to view `2`, not
re-anchored to the default view `1` — contradicting the claim that the
removal wins and the dependent moves to its next-available anchor. -/
theorem c2_counterexample :
    ViewMerge.applyRemoveView ⟨[1, 2], [(10, 2)]⟩ 2 = ⟨[1, 2], [(10, 2)]⟩ ∧
    2 ∈ (ViewMerge.applyRemoveView ⟨[1, 2], [(10, 2)]⟩ 2).views ∧
    (10, 2) ∈ (ViewMerge.applyRemoveView ⟨[1, 2], [(10, 2)]⟩ 2).geometries ∧
    (10, 1) ∉ (ViewMerge.applyRemoveView ⟨[1, 2], [(10, 2)]⟩ 2).geometries := by
  decide

/-- C2 (amended): when merging a change set that removed a view against a
baseline where another change set created a new dependent (a geometry)
inside that view, the removal is rejected: the view survives and every
dependent stays anchored where it was — nothing is dropped and nothing is
re-anchored. -/
theorem c2_removal_rejected_when_dependent_present (base : ViewMerge.ViewState) (v : Nat)
    (hg : base.geometries.any (fun gv => gv.2 == v) = true) :
    ViewMerge.applyRemoveView base v = base ∧
    ∀ g ∈ base.geometries, g ∈ (ViewMerge.applyRemoveView base v).geometries := by
  unfold ViewMerge.applyRemoveView
  simp [hg]

/-- C2 witness: the amended statement at the counterexample's concrete
base. -/
theorem c2_removal_rejected_witness :
    ViewMerge.applyRemoveView ⟨[1, 2], [(10, 2)]⟩ 2 = (⟨[1, 2], [(10, 2)]⟩ : ViewMerge.ViewState) ∧
    ∀ g ∈ [((10 : Nat), (2 : Nat))],
      g ∈ (ViewMerge.applyRemoveView ⟨[1, 2], [(10, 2)]⟩ 2).geometries :=
  c2_removal_rejected_when_dependent_present ⟨[1, 2], [(10, 2)]⟩ 2 (by decide)

/-- C9: `assemble_attribute_output_location` succeeds exactly when one of the
two output locations is supplied, and returns the same validation error both
when neither and when both are supplied. -/
theorem c9_assemble_output_location_exactly_one :
    (∀ (p : Option PropId) (o : Option OutputSocketId),
      (∃ d, AttributeBinding.assemble_attribute_output_location p o = .ok d) ↔
        ((∃ x, p = some x) ∧ o = none) ∨ (p = none ∧ ∃ y, o = some y)) ∧
    AttributeBinding.assemble_attribute_output_location none none =
      .error (.malformedInput "cannot set more than one output location") ∧
    (∀ (x : PropId) (y : OutputSocketId),
      AttributeBinding.assemble_attribute_output_location (some x) (some y) =
        .error (.malformedInput "cannot set more than one output location")) := by
  refine ⟨?_, rfl, fun x y => rfl⟩
  intro p o
  cases p <;> cases o <;>
    simp [AttributeBinding.assemble_attribute_output_location]

end Si

namespace Si.Crypto

/-- C7: key identifiers are content hashes of the key material — a message
encrypted under `k1` decrypts, given `k1`'s hash, on a service whose active
key is `k2` but which trusts `k1` as an extra key; a service trusting only
`k2` fails with the missing-key error, not the decryption-failed error. -/
theorem c7_key_rotation_and_missing_key (k1 k2 : Key) (m : List Nat) (n : Nonce)
    (hne : k1 ≠ k2) :
    ∃ c,
      (SymmetricCryptoService.new k1 []).encrypt n m = some (c, n, blake3Hash k1) ∧
      (SymmetricCryptoService.new k2 [k1]).decrypt c n (blake3Hash k1) = .ok m ∧
      (SymmetricCryptoService.new k2 []).decrypt c n (blake3Hash k1) =
        .error .missingDonkeyForHash := by
  refine ⟨secretboxSeal m n k1, ?_, ?_, ?_⟩
  · simp [SymmetricCryptoService.new, SymmetricCryptoService.encrypt, insertKey, lookupKey,
      blake3Hash]
  · simp [SymmetricCryptoService.new, SymmetricCryptoService.decrypt, insertKey, lookupKey,
      blake3Hash, secretboxOpen, secretboxSeal, Ne.symm hne]
  · simp [SymmetricCryptoService.new, SymmetricCryptoService.decrypt, insertKey, lookupKey,
      blake3Hash, Ne.symm hne]

/-- C7 witness: the rotation scenario at concrete keys 1 and 2, message
`[5]`, nonce 3. -/
theorem c7_key_rotation_witness :
    ∃ c,
      (SymmetricCryptoService.new 1 []).encrypt 3 [5] = some (c, 3, blake3Hash 1) ∧
      (SymmetricCryptoService.new 2 [1]).decrypt c 3 (blake3Hash 1) = .ok [5] ∧
      (SymmetricCryptoService.new 2 []).decrypt c 3 (blake3Hash 1) =
        .error .missingDonkeyForHash :=
  c7_key_rotation_and_missing_key 1 2 [5] 3 (by decide)

end Si.Crypto

namespace Si.Rebaser

theorem natDigitChar_toNat (d : Nat) (h : d < 10) : (natDigitChar d).toNat = 48 + d := by
  interval_cases d <;> decide

theorem natDigitChar_isDigit (d : Nat) (h : d < 10) : (natDigitChar d).isDigit = true := by
  interval_cases d <;> decide

theorem natToDigitChars_ne_nil (n : Nat) : natToDigitChars n ≠ [] := by
  rw [natToDigitChars]
  split
  · simp
  · simp

theorem natToDigitChars_all_digits (n : Nat) : ∀ c ∈ natToDigitChars n, c.isDigit = true := by
  induction n using Nat.strong_induction_on with
  | _ n ih =>
    rw [natToDigitChars]
    split
    · next h =>
      intro c hc
      simp only [List.mem_singleton] at hc
      subst hc
      exact natDigitChar_isDigit n h
    · next h =>
      intro c hc
      rcases List.mem_append.mp hc with h1 | h1
      · exact ih (n / 10) (Nat.div_lt_self (by omega) (by omega)) c h1
      · simp only [List.mem_singleton] at h1
        subst h1
        exact natDigitChar_isDigit (n % 10) (Nat.mod_lt _ (by omega))

theorem parseDecValue_append (l : List Char) (c : Char) :
    parseDecValue (l ++ [c]) = parseDecValue l * 10 + (c.toNat - 48) := by
  simp [parseDecValue, List.foldl_append]

theorem parseDecValue_natToDigitChars (n : Nat) :
    parseDecValue (natToDigitChars n) = n := by
  induction n using Nat.strong_induction_on with
  | _ n ih =>
    rw [natToDigitChars]
    split
    · next h =>
      simp [parseDecValue, natDigitChar_toNat n h]
    · next h =>
      rw [parseDecValue_append, ih (n / 10) (Nat.div_lt_self (by omega) (by omega)),
        natDigitChar_toNat (n % 10) (Nat.mod_lt _ (by omega))]
      omega

theorem u64FromStr_of_digits (l : List Char) (hne : l ≠ [])
    (hdig : ∀ c ∈ l, c.isDigit = true) (hlt : parseDecValue l < 2 ^ 64) :
    u64FromStr (String.mk l) = .ok (parseDecValue l) := by
  match l, hne with
  | c :: t, _ =>
    have hc : c.isDigit = true := hdig c (List.mem_cons_self c t)
    have hplus : c ≠ '+' := by
      intro hcp
      rw [hcp] at hc
      cases hc
    have hmatch : (match c :: t with | '+' :: rest => rest | cs => cs) = c :: t := by
      split
      · next rest heq =>
        exact False.elim (by revert heq; simp [hplus])
      · rfl
    have hdata : (String.mk (c :: t)).data = c :: t := rfl
    unfold u64FromStr
    rw [hdata, hmatch]
    simp only [List.isEmpty_cons, Bool.false_eq_true, if_false]
    rw [if_pos (by simpa [List.all_eq_true] using hdig), if_pos hlt]

end Si.Rebaser

namespace Si.Rebaser

theorem get_map_replace (m : HeaderMap) (name v : String)
    (h : m.any (fun kv => kv.1 == name) = true) :
    HeaderMap.get (m.map (fun kv => if kv.1 == name then (name, v) else kv)) name = some v := by
  induction m with
  | nil => cases h
  | cons hd tl ih =>
    by_cases hh : hd.1 = name
    · simp [HeaderMap.get, List.find?_cons, hh]
    · have h' : tl.any (fun kv => kv.1 == name) = true := by
        simpa [List.any_cons, hh] using h
      simpa [HeaderMap.get, List.find?_cons, hh] using ih h'

theorem get_append_single (m : HeaderMap) (name v : String)
    (h : m.any (fun kv => kv.1 == name) = false) :
    HeaderMap.get (m ++ [(name, v)]) name = some v := by
  induction m with
  | nil => simp [HeaderMap.get]
  | cons hd tl ih =>
    have hh : ¬hd.1 = name := by
      intro hcp
      simp [List.any_cons, hcp] at h
    have h' : tl.any (fun kv => kv.1 == name) = false := by
      simpa [List.any_cons, hh] using h
    simpa [HeaderMap.get, List.find?_cons, hh] using ih h'

theorem get_insert_self (m : HeaderMap) (name v : String) :
    HeaderMap.get (HeaderMap.insert m name v) name = some v := by
  unfold HeaderMap.insert
  by_cases h : m.any (fun kv => kv.1 == name) = true
  · rw [if_pos h]
    exact get_map_replace m name v h
  · rw [if_neg h]
    refine get_append_single m name v ?_
    simp only [Bool.not_eq_true] at h
    exact h

theorem get_map_replace_ne (m : HeaderMap) (name v name' : String) (h : name' ≠ name) :
    HeaderMap.get (m.map (fun kv => if kv.1 == name then (name, v) else kv)) name' =
      HeaderMap.get m name' := by
  induction m with
  | nil => rfl
  | cons hd tl ih =>
    by_cases hh : hd.1 = name
    · have h1 : ¬hd.1 = name' := by
        rw [hh]
        exact fun hc => h hc.symm
      have h2 : ¬name = name' := fun hc => h hc.symm
      simpa [HeaderMap.get, List.find?_cons, hh, h1, h2] using ih
    · by_cases hh' : hd.1 = name'
      · simp [HeaderMap.get, List.find?_cons, hh, hh', h]
      · simpa [HeaderMap.get, List.find?_cons, hh, hh'] using ih

theorem get_append_single_ne (m : HeaderMap) (name v name' : String) (h : name' ≠ name) :
    HeaderMap.get (m ++ [(name, v)]) name' = HeaderMap.get m name' := by
  induction m with
  | nil =>
    simp [HeaderMap.get, List.find?_cons, Ne.symm h]
  | cons hd tl ih =>
    by_cases hh' : hd.1 = name'
    · simp [HeaderMap.get, List.find?_cons, hh']
    · simpa [HeaderMap.get, List.find?_cons, hh'] using ih

theorem get_insert_ne (m : HeaderMap) (name v name' : String) (h : name' ≠ name) :
    HeaderMap.get (HeaderMap.insert m name v) name' = HeaderMap.get m name' := by
  unfold HeaderMap.insert
  by_cases ha : m.any (fun kv => kv.1 == name) = true
  · rw [if_pos ha]
    exact get_map_replace_ne m name v name' h
  · rw [if_neg ha]
    exact get_append_single_ne m name v name' h

end Si.Rebaser

namespace Si.Rebaser

theorem c8_envelope_header_parse_failures (map : HeaderMap) :
    (HeaderMap.get map NATS_HEADER_CONTENT_TYPE_NAME = none →
      ContentInfo.tryFromHeaders map =
        .error (.missingHeader NATS_HEADER_CONTENT_TYPE_NAME)) ∧
    (∀ ct, HeaderMap.get map NATS_HEADER_CONTENT_TYPE_NAME = some ct →
      HeaderMap.get map NATS_HEADER_MESSAGE_TYPE_NAME = none →
      ContentInfo.tryFromHeaders map =
        .error (.missingHeader NATS_HEADER_MESSAGE_TYPE_NAME)) ∧
    (∀ ct mt, HeaderMap.get map NATS_HEADER_CONTENT_TYPE_NAME = some ct →
      HeaderMap.get map NATS_HEADER_MESSAGE_TYPE_NAME = some mt →
      HeaderMap.get map NATS_HEADER_MESSAGE_VERSION_NAME = none →
      ContentInfo.tryFromHeaders map =
        .error (.missingHeader NATS_HEADER_MESSAGE_VERSION_NAME)) ∧
    (∀ ct mt mv e, HeaderMap.get map NATS_HEADER_CONTENT_TYPE_NAME = some ct →
      HeaderMap.get map NATS_HEADER_MESSAGE_TYPE_NAME = some mt →
      HeaderMap.get map NATS_HEADER_MESSAGE_VERSION_NAME = some mv →
      u64FromStr mv = .error e →
      ContentInfo.tryFromHeaders map = .error (.parseVersion e)) := by
  refine ⟨?_, ?_, ?_, ?_⟩
  · intro hct
    simp [ContentInfo.tryFromHeaders, hct, Bind.bind, Except.bind]
  · intro ct hct hmt
    simp [ContentInfo.tryFromHeaders, hct, hmt, Bind.bind, Except.bind]
  · intro ct mt hct hmt hmv
    simp [ContentInfo.tryFromHeaders, hct, hmt, hmv, Bind.bind, Except.bind]
  · intro ct mt mv e hct hmt hmv hparse
    simp [ContentInfo.tryFromHeaders, hct, hmt, hmv, hparse, Except.mapError, Bind.bind,
      Except.bind, Functor.map, Except.map]

theorem c8_witness :
    ContentInfo.tryFromHeaders [] =
      .error (.missingHeader NATS_HEADER_CONTENT_TYPE_NAME) ∧
    ContentInfo.tryFromHeaders
        [(NATS_HEADER_CONTENT_TYPE_NAME, "application/json"),
         (NATS_HEADER_MESSAGE_TYPE_NAME, "EnqueueRequest"),
         (NATS_HEADER_MESSAGE_VERSION_NAME, "abc")] =
      .error (.parseVersion .invalidDigit) := by
  constructor
  · exact (c8_envelope_header_parse_failures []).1 rfl
  · exact (c8_envelope_header_parse_failures _).2.2.2 "application/json" "EnqueueRequest" "abc"
      .invalidDigit (by decide) (by decide) (by decide) (by rfl)

theorem c10_content_info_roundtrip (ci : ContentInfo) (h : HeaderMap)
    (hv : ci.message_version < 2 ^ 64) :
    ContentInfo.tryFromHeaders (ContentInfo.inject_into_headers ci h) = .ok ci := by
  have hct :
      HeaderMap.get (ContentInfo.inject_into_headers ci h) NATS_HEADER_CONTENT_TYPE_NAME =
        some ci.content_type := by
    unfold ContentInfo.inject_into_headers
    rw [get_insert_ne _ _ _ _ (by decide), get_insert_ne _ _ _ _ (by decide), get_insert_self]
  have hmt :
      HeaderMap.get (ContentInfo.inject_into_headers ci h) NATS_HEADER_MESSAGE_TYPE_NAME =
        some ci.message_type := by
    unfold ContentInfo.inject_into_headers
    rw [get_insert_ne _ _ _ _ (by decide), get_insert_self]
  have hmv :
      HeaderMap.get (ContentInfo.inject_into_headers ci h) NATS_HEADER_MESSAGE_VERSION_NAME =
        some (messageVersionToString ci.message_version) := by
    unfold ContentInfo.inject_into_headers
    rw [get_insert_self]
  have hparse : u64FromStr (messageVersionToString ci.message_version) =
      .ok ci.message_version := by
    have hd := u64FromStr_of_digits (natToDigitChars ci.message_version)
      (natToDigitChars_ne_nil _) (natToDigitChars_all_digits _)
      (by rw [parseDecValue_natToDigitChars]; exact hv)
    rw [parseDecValue_natToDigitChars] at hd
    exact hd
  simp [ContentInfo.tryFromHeaders, hct, hmt, hmv, hparse, Except.mapError, Bind.bind,
    Except.bind, Functor.map, Except.map, Pure.pure, Except.pure]

theorem c10_roundtrip_witness :
    ContentInfo.tryFromHeaders
        (ContentInfo.inject_into_headers ⟨"application/json", "EnqueueRequest", 1⟩ []) =
      .ok ⟨"application/json", "EnqueueRequest", 1⟩ :=
  c10_content_info_roundtrip ⟨"application/json", "EnqueueRequest", 1⟩ [] (by decide)

end Si.Rebaser

namespace Si

theorem c1_locked_schema_variant_mutations_fail (s : Graph) (svId : SchemaVariantId)
    (sv : SchemaVariantNode) (hsv : s.schemaVariantById svId = some sv)
    (hl : sv.locked = true) :
    (∀ func_id func output_location args eventual_parent,
      s.funcById func_id = some func →
      func.kind = FuncKind.attribute →
      (match eventual_parent with
       | some eventual => Except.ok eventual
       | none =>
           (AttributeFuncDestination.find_schema_variant s output_location).map
             EventualParent.schemaVariant) =
        Except.ok (EventualParent.schemaVariant svId) →
      AttributeBinding.upsert_attribute_binding func_id eventual_parent output_location args s =
        (.error (.lockedSchemaVariant svId), s)) ∧
    (∀ pid args,
      AttributeBinding.find_eventual_parent s pid = .ok (.schemaVariant svId) →
      AttributeBinding.update_attribute_binding_arguments pid args s =
        (.error (.lockedSchemaVariant svId), s)) ∧
    (∀ pid,
      AttributeBinding.find_eventual_parent s pid = .ok (.schemaVariant svId) →
      AttributeBinding.reset_attribute_binding pid s = (.error (.lockedSchemaVariant svId), s)) ∧
    (∀ pid,
      AttributeBinding.find_eventual_parent s pid = .ok (.schemaVariant svId) →
      AttributeBinding.delete_attribute_prototype_and_args pid s =
        (.error (.lockedSchemaVariant svId), s)) := by
  have hlock : EventualParent.error_if_locked s (EventualParent.schemaVariant svId) =
      .error (.lockedSchemaVariant svId) := by
    simp [EventualParent.error_if_locked, SchemaVariant.is_locked, hsv, hl, Bind.bind,
      Except.bind, throw, throwThe, MonadExceptOf.throw]
  refine ⟨?_, ?_, ?_, ?_⟩
  · intro func_id func output_location args eventual_parent hf hk hep
    unfold AttributeBinding.upsert_attribute_binding
    simp [Func.get_by_id_or_error, hf, hk, hep, hlock]
  · intro pid args hfep
    unfold AttributeBinding.update_attribute_binding_arguments
    simp [hfep, hlock]
  · intro pid hfep
    unfold AttributeBinding.reset_attribute_binding
    simp [hfep, hlock]
  · intro pid hfep
    unfold AttributeBinding.delete_attribute_prototype_and_args
    simp [hfep, hlock]

theorem c1_locked_mutations_witness :
    AttributeBinding.upsert_attribute_binding 1 (some (.schemaVariant 100)) (.prop 5) []
        lockedFixture =
      (.error (.lockedSchemaVariant 100), lockedFixture) ∧
    AttributeBinding.update_attribute_binding_arguments 7 [] lockedFixture =
      (.error (.lockedSchemaVariant 100), lockedFixture) ∧
    AttributeBinding.reset_attribute_binding 7 lockedFixture =
      (.error (.lockedSchemaVariant 100), lockedFixture) ∧
    AttributeBinding.delete_attribute_prototype_and_args 7 lockedFixture =
      (.error (.lockedSchemaVariant 100), lockedFixture) := by
  have h := c1_locked_schema_variant_mutations_fail lockedFixture 100
    { id := 100, locked := true } rfl rfl
  exact ⟨h.1 1 { id := 1, kind := .attribute, isIdentity := false } (.prop 5) []
      (some (.schemaVariant 100)) rfl rfl rfl,
    h.2.1 7 [] rfl, h.2.2.1 7 rfl, h.2.2.2 7 rfl⟩

end Si

namespace Si

/-- Helper: a pointwise-identity map is the identity. -/
theorem list_map_eq_self_of {α : Type} (l : List α) (f : α → α) (h : ∀ a ∈ l, f a = a) :
    l.map f = l := by
  induction l with
  | nil => rfl
  | cons x xs ih =>
    rw [List.map_cons, h x (List.mem_cons_self x xs), ih (fun a ha => h a (List.mem_cons_of_mem x ha))]

/-- Helper: setting the value source of the freshly created argument node
updates exactly that node. -/
theorem set_value_after_new (pid : AttributePrototypeId) (argId : FuncArgumentId)
    (src : AttributeFuncArgumentSource) (s : Graph)
    (hwf : ∀ a ∈ s.apas, a.id < s.nextId) :
    AttributePrototypeArgument.set_value_from_source s.nextId src
      { s with
        apas := s.apas ++
          [{ id := s.nextId, prototypeId := pid, funcArgumentId := argId, source := none }],
        nextId := s.nextId + 1 } =
    (.ok (),
      { s with
        apas := s.apas ++
          [{ id := s.nextId, prototypeId := pid, funcArgumentId := argId,
             source := some src }],
        nextId := s.nextId + 1 }) := by
  have hany :
      (s.apas ++
        [(⟨s.nextId, pid, argId, none⟩ : AttributePrototypeArgumentNode)]).any
        (fun a => a.id == s.nextId) = true := by
    simp [List.any_append]
  have hmap :
      (s.apas ++
        [(⟨s.nextId, pid, argId, none⟩ : AttributePrototypeArgumentNode)]).map
        (fun (a : AttributePrototypeArgumentNode) =>
          if a.id == s.nextId then { a with source := some src } else a) =
      s.apas ++ [(⟨s.nextId, pid, argId, some src⟩ : AttributePrototypeArgumentNode)] := by
    rw [List.map_append]
    congr 1
    · refine list_map_eq_self_of _ _ ?_
      intro a ha
      have hne : a.id ≠ s.nextId := Nat.ne_of_lt (hwf a ha)
      simp [hne]
    · simp
  unfold AttributePrototypeArgument.set_value_from_source
  rw [if_pos hany]
  simp only [hmap]

/-- Helper: one loop iteration for a present function argument (with any
static value parsing as JSON) creates the argument node and records its
source. -/
theorem processOneArg_present (pid : AttributePrototypeId) (arg : AttributeArgumentBinding)
    (s : Graph) (fa : FuncArgumentNode)
    (hfa : s.funcArgs.find? (fun f => f.id == arg.func_argument_id) = some fa)
    (hwf : ∀ a ∈ s.apas, a.id < s.nextId)
    (hjson : ∀ v, arg.attribute_func_input_location = .staticArgument v →
      jsonValid v = true) :
    processOneArg pid arg s =
      (.ok (),
        { s with
          apas := s.apas ++
            [{ id := s.nextId, prototypeId := pid,
               funcArgumentId := arg.func_argument_id,
               source := some arg.attribute_func_input_location }],
          nextId := s.nextId + 1 }) := by
  have haction :
      argLookupAction arg.func_argument_id
        (FuncArgument.get_by_id_or_error s arg.func_argument_id) = .proceed := by
    unfold argLookupAction FuncArgument.get_by_id_or_error Graph.funcArgById
    rw [hfa]
  unfold processOneArg processOneArgAfterLookup
  rw [haction]
  rcases harg : arg.attribute_func_input_location with p | i | v
  · simpa only [AttributePrototypeArgument.new, harg,
      AttributePrototypeArgument.set_value_from_prop_id] using
      set_value_after_new pid arg.func_argument_id (.prop p) s hwf
  · simpa only [AttributePrototypeArgument.new, harg,
      AttributePrototypeArgument.set_value_from_input_socket_id] using
      set_value_after_new pid arg.func_argument_id (.inputSocket i) s hwf
  · have hparse : serde_json_from_str v = .ok v := by
      unfold serde_json_from_str
      rw [if_pos (hjson v harg)]
    simpa only [AttributePrototypeArgument.new, harg, hparse,
      AttributePrototypeArgument.set_value_from_static_value] using
      set_value_after_new pid arg.func_argument_id (.staticArgument v) s hwf

/-- Helper: one loop iteration for a stale function argument is a silent
no-op. -/
theorem processOneArg_absent (pid : AttributePrototypeId) (arg : AttributeArgumentBinding)
    (s : Graph)
    (hfa : s.funcArgs.find? (fun f => f.id == arg.func_argument_id) = none) :
    processOneArg pid arg s = (.ok (), s) := by
  unfold processOneArg processOneArgAfterLookup argLookupAction
    FuncArgument.get_by_id_or_error Graph.funcArgById
  rw [hfa]
  simp

/-- Helper: the whole argument loop succeeds, appending exactly the nodes for
the present requested arguments. -/
theorem processPrototypeArguments_ok (pid : AttributePrototypeId)
    (args : List AttributeArgumentBinding) (s : Graph)
    (hwf : ∀ a ∈ s.apas, a.id < s.nextId)
    (hjson : staticArgsValid args = true) :
    processPrototypeArguments pid args s =
      (.ok (),
        { s with
          apas := s.apas ++ createdApas s.funcArgs pid args s.nextId,
          nextId := s.nextId + countPresentArgs s.funcArgs args }) := by
  induction args generalizing s with
  | nil =>
    simp [processPrototypeArguments, createdApas, countPresentArgs]
  | cons arg rest ih =>
    have hjsplit : (match arg.attribute_func_input_location with
        | AttributeFuncArgumentSource.staticArgument v => jsonValid v
        | _ => true) = true ∧ staticArgsValid rest = true := by
      have h := hjson
      simp only [staticArgsValid, List.all_cons, Bool.and_eq_true] at h
      exact ⟨h.1, h.2⟩
    have hjhead : ∀ v, arg.attribute_func_input_location = .staticArgument v →
        jsonValid v = true := by
      intro v hv
      have h := hjsplit.1
      rw [hv] at h
      simpa using h
    rcases hp : s.funcArgs.find? (fun f => f.id == arg.func_argument_id) with _ | fa
    · have hc : (s.funcArgs.find? (fun f => f.id == arg.func_argument_id)).isSome = false := by
        rw [hp]; rfl
      rw [processPrototypeArguments]
      simp only [processOneArg_absent pid arg s hp]
      rw [ih s hwf hjsplit.2]
      simp [createdApas, countPresentArgs, hc]
    · have hc : (s.funcArgs.find? (fun f => f.id == arg.func_argument_id)).isSome = true := by
        rw [hp]; rfl
      have hwf1 : ∀ a ∈ (s.apas ++
          [(⟨s.nextId, pid, arg.func_argument_id,
            some arg.attribute_func_input_location⟩ : AttributePrototypeArgumentNode)]),
          a.id < s.nextId + 1 := by
        intro a ha
        simp only [List.mem_append, List.mem_singleton] at ha
        rcases ha with ha | ha
        · exact Nat.lt_succ_of_lt (hwf a ha)
        · rw [ha]
          exact Nat.lt_succ_self _
      rw [processPrototypeArguments]
      simp only [processOneArg_present pid arg s fa hp hwf hjhead]
      rw [ih _ hwf1 hjsplit.2]
      simp [createdApas, countPresentArgs, hc, List.append_assoc, Nat.add_assoc,
        Nat.add_comm 1]

end Si

namespace Si

/-- Helper: `removeApas` touches only the `apas` field, shrinking it. -/
theorem removeApas_spec (ids : List AttributePrototypeArgumentId) (s : Graph) :
    (removeApas ids s).funcs = s.funcs ∧
    (removeApas ids s).funcArgs = s.funcArgs ∧
    (removeApas ids s).nextId = s.nextId ∧
    (∀ a ∈ (removeApas ids s).apas, a ∈ s.apas) := by
  induction ids generalizing s with
  | nil => exact ⟨rfl, rfl, rfl, fun a h => h⟩
  | cons i rest ih =>
    have hstep : removeApas (i :: rest) s =
        removeApas rest (AttributePrototypeArgument.remove i s) := by
      simp [removeApas]
    rw [hstep]
    have h1 := ih (AttributePrototypeArgument.remove i s)
    refine ⟨h1.1, h1.2.1, h1.2.2.1, ?_⟩
    intro a ha
    have := h1.2.2.2 a ha
    exact List.mem_of_mem_filter this

/-- Helper: the DVU enqueue step only appends to the queue. -/
theorem enqueue_dvu_spec (pid : AttributePrototypeId) (s : Graph) :
    ∃ s', AttributeBinding.enqueue_dvu_for_impacted_values pid s = (.ok (), s') ∧
      s'.funcs = s.funcs ∧ s'.funcArgs = s.funcArgs ∧ s'.apas = s.apas ∧
      s'.nextId = s.nextId ∧ s'.prototypes = s.prototypes ∧
      s'.protoEdges = s.protoEdges ∧ s'.attributeValues = s.attributeValues := by
  unfold AttributeBinding.enqueue_dvu_for_impacted_values
  by_cases h : (AttributePrototype.attribute_value_ids s pid).isEmpty = true
  · rw [if_pos h]
    exact ⟨s, rfl, rfl, rfl, rfl, rfl, rfl, rfl, rfl⟩
  · rw [if_neg h]
    exact ⟨addDependentValuesAndEnqueue (AttributePrototype.attribute_value_ids s pid) s,
      rfl, rfl, rfl, rfl, rfl, rfl, rfl, rfl⟩

/-- Helper: the created argument nodes are exactly the present requested
arguments, in order. -/
theorem createdApas_map_funcArg (funcArgs : List FuncArgumentNode)
    (pid : AttributePrototypeId) (args : List AttributeArgumentBinding) (nid : Nat) :
    (createdApas funcArgs pid args nid).map (fun a => a.funcArgumentId) =
      (args.filter
        (fun arg => (funcArgs.find? (fun f => f.id == arg.func_argument_id)).isSome)).map
        (fun arg => arg.func_argument_id) := by
  induction args generalizing nid with
  | nil => rfl
  | cons arg rest ih =>
    by_cases hp : (funcArgs.find? (fun f => f.id == arg.func_argument_id)).isSome = true
    · simp [createdApas, hp, List.filter_cons, ih]
    · simp only [Bool.not_eq_true] at hp
      simp [createdApas, hp, List.filter_cons, ih]

/-- C4: stale argument references are skipped while the operation succeeds
for the remaining arguments, and the dispatch on the lookup error is exact —
a node-with-id-not-found error for precisely the requested id means skip,
any other lookup error fails the whole operation. -/
theorem c4_stale_arguments_skipped (s : Graph) (pid : AttributePrototypeId)
    (args : List AttributeArgumentBinding) (ep : EventualParent) (fid : FuncId)
    (hfep : AttributeBinding.find_eventual_parent s pid = .ok ep)
    (hlock : EventualParent.error_if_locked s ep = .ok ())
    (hfid : AttributePrototype.func_id s pid = .ok fid)
    (hwf : ∀ a ∈ s.apas, a.id < s.nextId)
    (hjson : staticArgsValid args = true) :
    (∃ s', AttributeBinding.update_attribute_binding_arguments pid args s =
        (FuncBinding.for_func_id s' fid, s') ∧
      s'.apas = (AttributeBinding.delete_attribute_prototype_args pid s).apas ++
        createdApas s.funcArgs pid args s.nextId ∧
      s'.funcArgs = s.funcArgs) ∧
    ((createdApas s.funcArgs pid args s.nextId).map (fun a => a.funcArgumentId) =
      (args.filter (fun arg => (s.funcArgById arg.func_argument_id).isSome)).map
        (fun arg => arg.func_argument_id)) ∧
    (∀ argId : FuncArgumentId,
      argLookupAction argId (.error (.workspaceSnapshot (.nodeWithIdNotFound argId))) =
        .skip) ∧
    (∀ (argId : FuncArgumentId) (e : FuncArgumentError),
      e ≠ .workspaceSnapshot (.nodeWithIdNotFound argId) →
      argLookupAction argId (.error e) = .fail e) ∧
    (∀ (arg : AttributeArgumentBinding) (r : Except FuncArgumentError FuncArgumentNode)
        (s0 : Graph) (e : FuncArgumentError),
      argLookupAction arg.func_argument_id r = .fail e →
      processOneArgAfterLookup pid arg r s0 = (.error (.funcArgument e), s0)) ∧
    (∀ (arg : AttributeArgumentBinding) (rest : List AttributeArgumentBinding)
        (s0 s1 : Graph) (e : FuncBindingError),
      processOneArg pid arg s0 = (.error e, s1) →
      processPrototypeArguments pid (arg :: rest) s0 = (.error e, s1)) := by
  refine ⟨?_, ?_, ?_, ?_, ?_, ?_⟩
  · set s1 := AttributeBinding.delete_attribute_prototype_args pid s with hs1
    have hdel := removeApas_spec
      (AttributePrototypeArgument.list_ids_for_prototype s pid) s
    have hwf1 : ∀ a ∈ s1.apas, a.id < s1.nextId := by
      intro a ha
      rw [hs1, AttributeBinding.delete_attribute_prototype_args] at ha ⊢
      rw [hdel.2.2.1]
      exact hwf a (hdel.2.2.2 a ha)
    have hloop := processPrototypeArguments_ok pid args s1 hwf1 hjson
    obtain ⟨s2, henq, hfields⟩ := enqueue_dvu_spec pid
      { s1 with
        apas := s1.apas ++ createdApas s1.funcArgs pid args s1.nextId,
        nextId := s1.nextId + countPresentArgs s1.funcArgs args }
    refine ⟨s2, ?_, ?_, ?_⟩
    · unfold AttributeBinding.update_attribute_binding_arguments
      rw [hfep]
      simp only [hlock]
      rw [hfid]
      simp only [← hs1, hloop, henq]
    · rw [hfields.2.2.1]
      have hfa : s1.funcArgs = s.funcArgs := by
        rw [hs1, AttributeBinding.delete_attribute_prototype_args]
        exact (removeApas_spec _ s).2.1
      have hni : s1.nextId = s.nextId := by
        rw [hs1, AttributeBinding.delete_attribute_prototype_args]
        exact (removeApas_spec _ s).2.2.1
      simp [hfa, hni]
    · rw [hfields.2.1]
      rw [hs1, AttributeBinding.delete_attribute_prototype_args]
      exact (removeApas_spec _ s).2.1
  · exact createdApas_map_funcArg s.funcArgs pid args s.nextId
  · intro argId
    simp [argLookupAction]
  · intro argId e hne
    rcases e with we | msg
    · rcases we with ⟨raw⟩
      have hr : raw ≠ argId := by
        intro hc
        exact hne (by rw [hc])
      have hb : (raw == argId) = false := by
        rw [beq_eq_false_iff_ne]
        exact hr
      simp [argLookupAction, hb]
    · rfl
  · intro arg r s0 e hfail
    unfold processOneArgAfterLookup
    rw [hfail]
  · intro arg rest s0 s1 e hone
    rw [processPrototypeArguments]
    simp only [hone]

end Si

namespace Si

/-- Helper: `removeApas` leaves every field other than `apas` unchanged. -/
theorem removeApas_fields (ids : List AttributePrototypeArgumentId) (s : Graph) :
    (removeApas ids s).schemaVariants = s.schemaVariants ∧
    (removeApas ids s).props = s.props ∧
    (removeApas ids s).outputSockets = s.outputSockets ∧
    (removeApas ids s).components = s.components ∧
    (removeApas ids s).prototypes = s.prototypes ∧
    (removeApas ids s).protoEdges = s.protoEdges ∧
    (removeApas ids s).attributeValues = s.attributeValues ∧
    (removeApas ids s).dvuQueue = s.dvuQueue := by
  induction ids generalizing s with
  | nil => exact ⟨rfl, rfl, rfl, rfl, rfl, rfl, rfl, rfl⟩
  | cons i rest ih =>
    have hstep : removeApas (i :: rest) s =
        removeApas rest (AttributePrototypeArgument.remove i s) := by
      simp [removeApas]
    rw [hstep]
    exact ih (AttributePrototypeArgument.remove i s)

/-- Helper: the SchemaVariant branches of the upsert destination step (both
the Prop and the OutputSocket destination), when a default prototype already
exists and its lock check passes: delete the old prototype and its
arguments, then link the new one to the destination. -/
theorem upsertDestinationStep_sv (s1 : Graph) (svId : SchemaVariantId)
    (dest : AttributeFuncDestination) (oldP newPid : AttributePrototypeId)
    (ep : EventualParent)
    (hold : (s1.protoEdges.find? (fun e => e.1 == dest)).map (fun e => e.2) = some oldP)
    (holde : AttributeBinding.find_eventual_parent s1 oldP = .ok ep)
    (holdl : EventualParent.error_if_locked s1 ep = .ok ()) :
    upsertDestinationStep (.schemaVariant svId) dest newPid s1 =
      (.ok (),
        { AttributePrototype.remove oldP
            (AttributeBinding.delete_attribute_prototype_args oldP s1) with
          protoEdges :=
            (AttributePrototype.remove oldP
              (AttributeBinding.delete_attribute_prototype_args oldP s1)).protoEdges ++
              [(dest, newPid)] }) := by
  rcases dest with p | o
  · have hold' : AttributePrototype.find_for_prop s1 p = some oldP := hold
    simp only [upsertDestinationStep, AttributeBinding.delete_attribute_prototype_and_args,
      hold', holde, holdl, Prop.add_edge_to_attribute_prototype]
  · have hold' : AttributePrototype.find_for_output_socket s1 o = some oldP := hold
    simp only [upsertDestinationStep, AttributeBinding.delete_attribute_prototype_and_args,
      hold', holde, holdl, OutputSocket.add_edge_to_attribute_prototype]

/-- Helper: the controlling prototype after replacing the default prototype
of a destination — an attribute value is controlled by the new prototype
exactly when it was controlled by the old one, provided the `Prototype` edge
is one-to-one between the destination and `oldP` and the new id is fresh. -/
theorem controlling_replace (s s5 : Graph) (dest : AttributeFuncDestination)
    (oldP newPid : AttributePrototypeId)
    (hedges : s5.protoEdges =
      s.protoEdges.filter (fun e => e.2 != oldP) ++ [(dest, newPid)])
    (hold : (s.protoEdges.find? (fun e => e.1 == dest)).map (fun e => e.2) = some oldP)
    (huniq1 : ∀ e ∈ s.protoEdges, e.1 = dest → e.2 = oldP)
    (huniq2 : ∀ e ∈ s.protoEdges, e.2 = oldP → e.1 = dest)
    (hfresh : ∀ e ∈ s.protoEdges, e.2 ≠ newPid)
    (av : AttributeValueNode)
    (hno : av.overrideProto ≠ some oldP)
    (hnoN : av.overrideProto ≠ some newPid) :
    (controllingPrototype s5 av == some newPid) =
      (controllingPrototype s av == some oldP) := by
  unfold controllingPrototype
  rcases hov : av.overrideProto with _ | q
  · rw [hedges, List.find?_append]
    by_cases hd : av.dest = dest
    · -- destination is the replaced one: old side finds the old prototype,
      -- new side finds the appended edge
      have hfilter :
          (s.protoEdges.filter (fun e => e.2 != oldP)).find?
            (fun e => e.1 == av.dest) = none := by
        rw [List.find?_eq_none]
        intro e he
        have hmem := List.mem_of_mem_filter he
        have hprop := List.of_mem_filter he
        intro hcontra
        have h1 : e.1 = av.dest := by simpa using hcontra
        have h2 : e.2 = oldP := huniq1 e hmem (hd ▸ h1)
        simp [h2] at hprop
      have hcond : (dest == av.dest) = true := by
        rw [beq_iff_eq]
        exact hd.symm
      have hnew : (([(dest, newPid)] :
          List (AttributeFuncDestination × AttributePrototypeId)).find?
            (fun e => e.1 == av.dest)) = some (dest, newPid) := by
        rw [List.find?_cons]
        simp [hcond]
      rw [hfilter, hnew]
      rcases hfind : s.protoEdges.find? (fun e => e.1 == dest) with _ | e0
      · rw [hfind] at hold
        cases hold
      · rw [hfind] at hold
        have he0 : e0.2 = oldP := by simpa using hold
        rw [hd, hfind]
        simp [he0]
    · -- destination untouched: neither side can name either prototype
      have hcond : (dest == av.dest) = false := by
        rw [beq_eq_false_iff_ne]
        exact fun hc => hd hc.symm
      have hnew : (([(dest, newPid)] :
          List (AttributeFuncDestination × AttributePrototypeId)).find?
            (fun e => e.1 == av.dest)) = none := by
        rw [List.find?_cons]
        simp [hcond]
      rw [hnew]
      rcases hfind : (s.protoEdges.filter (fun e => e.2 != oldP)).find?
          (fun e => e.1 == av.dest) with _ | e1
      · rw [hfind]
        rcases hfind0 : s.protoEdges.find? (fun e => e.1 == av.dest) with _ | e0
        · rw [hfind0]
          simp [Option.or]
        · rw [hfind0]
          have hmem0 := List.mem_of_find?_eq_some hfind0
          have hne0 : e0.2 ≠ oldP := by
            intro hcontra
            have h2 := huniq2 e0 hmem0 hcontra
            have h1 : e0.1 = av.dest := by
              simpa using List.find?_some hfind0
            exact hd (h1 ▸ h2)
          simp [Option.or, hne0]
      · rw [hfind]
        have hmem1 := List.mem_of_mem_filter (List.mem_of_find?_eq_some hfind)
        have hne1 : e1.2 ≠ newPid := hfresh e1 hmem1
        rcases hfind0 : s.protoEdges.find? (fun e => e.1 == av.dest) with _ | e0
        · have h1 : e1.1 = av.dest := by
            simpa using List.find?_some hfind
          have h2 := List.find?_eq_none.mp hfind0 e1 hmem1
          simp [h1] at h2
        · rw [hfind0]
          have hmem0 := List.mem_of_find?_eq_some hfind0
          have hne0 : e0.2 ≠ oldP := by
            intro hcontra
            have h2 := huniq2 e0 hmem0 hcontra
            have h1 : e0.1 = av.dest := by
              simpa using List.find?_some hfind0
            exact hd (h1 ▸ h2)
          simp [Option.or, hne1, hne0]
  · have h1 : q ≠ oldP := fun hc => hno (hov ▸ hc ▸ rfl)
    have h2 : q ≠ newPid := fun hc => hnoN (hov ▸ hc ▸ rfl)
    simp [h1, h2]

end Si

namespace Si

/-- Helper: the impacted attribute values of the new prototype are exactly
those the old prototype controlled. -/
theorem attribute_value_ids_replace (s s5 : Graph) (dest : AttributeFuncDestination)
    (oldP newPid : AttributePrototypeId)
    (hav : s5.attributeValues = s.attributeValues)
    (hedges : s5.protoEdges =
      s.protoEdges.filter (fun e => e.2 != oldP) ++ [(dest, newPid)])
    (hold : (s.protoEdges.find? (fun e => e.1 == dest)).map (fun e => e.2) = some oldP)
    (huniq1 : ∀ e ∈ s.protoEdges, e.1 = dest → e.2 = oldP)
    (huniq2 : ∀ e ∈ s.protoEdges, e.2 = oldP → e.1 = dest)
    (hfresh : ∀ e ∈ s.protoEdges, e.2 ≠ newPid)
    (hno : ∀ av ∈ s.attributeValues, av.overrideProto ≠ some oldP)
    (hnoN : ∀ av ∈ s.attributeValues, av.overrideProto ≠ some newPid) :
    AttributePrototype.attribute_value_ids s5 newPid =
      AttributePrototype.attribute_value_ids s oldP := by
  unfold AttributePrototype.attribute_value_ids
  rw [hav]
  congr 1
  exact List.filter_congr (fun av hmem =>
    controlling_replace s s5 dest oldP newPid hedges hold huniq1 huniq2 hfresh av
      (hno av hmem) (hnoN av hmem))

/-- C3: a successful upsert over a prop or output-socket destination with an
existing default prototype replaces it, returns the newly created prototype,
and enqueues for dependent-values update exactly the attribute values the
old (replaced) prototype controlled. -/
theorem c3_upsert_enqueues_impacted_values (s : Graph) (func_id : FuncId) (func : FuncNode)
    (svId : SchemaVariantId) (sv : SchemaVariantNode)
    (dest : AttributeFuncDestination) (oldP : AttributePrototypeId) (ep : EventualParent)
    (args : List AttributeArgumentBinding)
    (hf : s.funcById func_id = some func) (hk : func.kind = FuncKind.attribute)
    (hsv : s.schemaVariantById svId = some sv) (hnl : sv.locked = false)
    (hold : (s.protoEdges.find? (fun e => e.1 == dest)).map (fun e => e.2) = some oldP)
    (holde : AttributeBinding.find_eventual_parent s oldP = .ok ep)
    (holdl : EventualParent.error_if_locked s ep = .ok ())
    (huniq1 : ∀ e ∈ s.protoEdges, e.1 = dest → e.2 = oldP)
    (huniq2 : ∀ e ∈ s.protoEdges, e.2 = oldP → e.1 = dest)
    (hwfE : ∀ e ∈ s.protoEdges, e.2 < s.nextId)
    (hwfA : ∀ a ∈ s.apas, a.id < s.nextId)
    (hno : ∀ av ∈ s.attributeValues, av.overrideProto ≠ some oldP)
    (hwfAv : ∀ av ∈ s.attributeValues, ∀ q, av.overrideProto = some q → q < s.nextId)
    (hjson : staticArgsValid args = true) :
    ∃ s6, AttributeBinding.upsert_attribute_binding func_id
        (some (.schemaVariant svId)) dest args s =
      (.ok { id := s.nextId, funcId := func_id }, s6) ∧
      s6.dvuQueue = s.dvuQueue ++ AttributePrototype.attribute_value_ids s oldP := by
  have hfunc : Func.get_by_id_or_error s func_id = .ok func := by
    simp [Func.get_by_id_or_error, hf]
  have hlockok : EventualParent.error_if_locked s (EventualParent.schemaVariant svId) =
      .ok () := by
    simp [EventualParent.error_if_locked, SchemaVariant.is_locked, hsv, hnl, Bind.bind,
      Except.bind, pure, Except.pure]
  -- intermediate states
  set P : AttributePrototypeNode := { id := s.nextId, funcId := func_id } with hP
  set s1 : Graph := { s with prototypes := s.prototypes ++ [P], nextId := s.nextId + 1 }
    with hs1
  have hold1 : (s1.protoEdges.find? (fun e => e.1 == dest)).map (fun e => e.2) =
      some oldP := hold
  have holde1 : AttributeBinding.find_eventual_parent s1 oldP = .ok ep := holde
  have holdl1 : EventualParent.error_if_locked s1 ep = .ok () := holdl
  have hdest := upsertDestinationStep_sv s1 svId dest oldP s.nextId ep hold1 holde1 holdl1
  set s2 : Graph := AttributeBinding.delete_attribute_prototype_args oldP s1 with hs2
  set s3 : Graph := AttributePrototype.remove oldP s2 with hs3
  set s4 : Graph := { s3 with protoEdges := s3.protoEdges ++ [(dest, s.nextId)] } with hs4
  have hs2fields := removeApas_fields (AttributePrototypeArgument.list_ids_for_prototype s1 oldP) s1
  have hs2mem := removeApas_spec (AttributePrototypeArgument.list_ids_for_prototype s1 oldP) s1
  have hwf4 : ∀ a ∈ s4.apas, a.id < s4.nextId := by
    intro a ha
    have h3 : a ∈ s3.apas := ha
    have h2 : a ∈ s2.apas := by
      rw [hs3, AttributePrototype.remove] at h3
      exact List.mem_of_mem_filter h3
    have h1 : a ∈ s1.apas := hs2mem.2.2.2 a h2
    have h0 : a ∈ s.apas := h1
    have : a.id < s.nextId := hwfA a h0
    have hn4 : s4.nextId = s.nextId + 1 := by
      rw [hs4]
      show s3.nextId = s.nextId + 1
      rw [hs3, AttributePrototype.remove]
      exact hs2mem.2.2.1
    rw [hn4]
    exact Nat.lt_succ_of_lt this
  have hloop := processPrototypeArguments_ok s.nextId args s4 hwf4 hjson
  set s5 : Graph := { s4 with
    apas := s4.apas ++ createdApas s4.funcArgs s.nextId args s4.nextId,
    nextId := s4.nextId + countPresentArgs s4.funcArgs args } with hs5
  -- field bookkeeping
  have hav2 : s2.attributeValues = s.attributeValues := hs2fields.2.2.2.2.2.2.1
  have hav5 : s5.attributeValues = s.attributeValues := by
    rw [hs5]
    show s4.attributeValues = s.attributeValues
    rw [hs4]
    show s3.attributeValues = s.attributeValues
    rw [hs3, AttributePrototype.remove]
    show s2.attributeValues.map _ = s.attributeValues
    rw [hav2]
    refine list_map_eq_self_of _ _ ?_
    intro av hmem
    have hne : (av.overrideProto == some oldP) = false := by
      rw [beq_eq_false_iff_ne]
      exact hno av hmem
    simp [hne]
  have hpe2 : s2.protoEdges = s.protoEdges := hs2fields.2.2.2.2.2.1
  have hedges5 : s5.protoEdges =
      s.protoEdges.filter (fun e => e.2 != oldP) ++ [(dest, s.nextId)] := by
    rw [hs5]
    show s4.protoEdges = _
    rw [hs4]
    show s3.protoEdges ++ _ = _
    rw [hs3, AttributePrototype.remove]
    show s2.protoEdges.filter _ ++ _ = _
    rw [hpe2]
  have hdvu5 : s5.dvuQueue = s.dvuQueue := by
    rw [hs5]
    show s4.dvuQueue = s.dvuQueue
    rw [hs4]
    show s3.dvuQueue = s.dvuQueue
    rw [hs3, AttributePrototype.remove]
    show s2.dvuQueue = s.dvuQueue
    exact hs2fields.2.2.2.2.2.2.2
  have hfresh : ∀ e ∈ s.protoEdges, e.2 ≠ s.nextId :=
    fun e he => Nat.ne_of_lt (hwfE e he)
  have hnoN : ∀ av ∈ s.attributeValues, av.overrideProto ≠ some s.nextId := by
    intro av hmem hcontra
    exact Nat.ne_of_lt (hwfAv av hmem s.nextId hcontra) rfl
  have hV : AttributePrototype.attribute_value_ids s5 s.nextId =
      AttributePrototype.attribute_value_ids s oldP :=
    attribute_value_ids_replace s s5 dest oldP s.nextId hav5 hedges5 hold huniq1 huniq2
      hfresh hno hnoN
  -- run the operation
  unfold AttributeBinding.upsert_attribute_binding
  rw [hfunc]
  simp only [hk, ne_eq, not_true_eq_false, if_false, reduceIte, hlockok,
    AttributePrototype.new]
  rw [hdest]
  simp only [hloop]
  unfold AttributeBinding.enqueue_dvu_for_impacted_values
  rw [hV]
  by_cases hemp : (AttributePrototype.attribute_value_ids s oldP).isEmpty = true
  · rw [if_pos hemp]
    refine ⟨s5, rfl, ?_⟩
    rw [hdvu5, List.isEmpty_iff.mp hemp, List.append_nil]
  · rw [if_neg hemp]
    refine ⟨{ s5 with dvuQueue := s5.dvuQueue ++
        AttributePrototype.attribute_value_ids s oldP }, rfl, ?_⟩
    show s5.dvuQueue ++ _ = _
    rw [hdvu5]

end Si

namespace Si

/-- C3 witness: the replacement scenario at both concrete fixtures — over
the prop destination the new prototype 50 is returned and the value 30
controlled by the replaced prototype 7 is enqueued; over the output-socket
destination likewise for value 31 and replaced prototype 8; the requested
argument list carries a static value that parses as JSON. -/
theorem c3_upsert_enqueues_witness :
    (∃ s6, AttributeBinding.upsert_attribute_binding 1
        (some (.schemaVariant 100)) (.prop 5)
        [{ func_argument_id := 2, attribute_prototype_argument_id := none,
           attribute_func_input_location := .staticArgument "3" }] upsertFixture =
      (.ok { id := 50, funcId := 1 }, s6) ∧
      s6.dvuQueue = upsertFixture.dvuQueue ++
        AttributePrototype.attribute_value_ids upsertFixture 7) ∧
    (∃ s6, AttributeBinding.upsert_attribute_binding 1
        (some (.schemaVariant 100)) (.outputSocket 6)
        [{ func_argument_id := 2, attribute_prototype_argument_id := none,
           attribute_func_input_location := .staticArgument "3" }] upsertSocketFixture =
      (.ok { id := 50, funcId := 1 }, s6) ∧
      s6.dvuQueue = upsertSocketFixture.dvuQueue ++
        AttributePrototype.attribute_value_ids upsertSocketFixture 8) :=
  ⟨c3_upsert_enqueues_impacted_values upsertFixture 1
      { id := 1, kind := .attribute, isIdentity := false } 100 { id := 100, locked := false }
      (.prop 5) 7 (.schemaVariant 100) _ rfl rfl rfl rfl rfl rfl rfl (by decide) (by decide)
      (by decide) (by decide) (by decide) (by decide) (by decide),
   c3_upsert_enqueues_impacted_values upsertSocketFixture 1
      { id := 1, kind := .attribute, isIdentity := false } 100 { id := 100, locked := false }
      (.outputSocket 6) 8 (.schemaVariant 100) _ rfl rfl rfl rfl rfl rfl rfl (by decide)
      (by decide) (by decide) (by decide) (by decide) (by decide) (by decide)⟩

/-- C4 witness: the stale-argument scenario at the concrete fixture — the
requests naming the existing function argument 2 (one by input socket, one
by a static JSON value) are created, the one naming the absent argument 33
is skipped, the operation succeeds; and the error dispatch is exercised at a
concrete non-missing lookup error and at a concrete static argument whose
value does not parse as JSON. -/
theorem c4_stale_arguments_witness :
    (∃ s', AttributeBinding.update_attribute_binding_arguments 7 staleArgsFixture
        updateFixture =
        (FuncBinding.for_func_id s' 1, s') ∧
      s'.apas = (AttributeBinding.delete_attribute_prototype_args 7 updateFixture).apas ++
        createdApas updateFixture.funcArgs 7 staleArgsFixture updateFixture.nextId ∧
      s'.funcArgs = updateFixture.funcArgs) ∧
    ((createdApas updateFixture.funcArgs 7 staleArgsFixture updateFixture.nextId).map
        (fun a => a.funcArgumentId) =
      (staleArgsFixture.filter
        (fun arg => (updateFixture.funcArgById arg.func_argument_id).isSome)).map
        (fun arg => arg.func_argument_id)) ∧
    (argLookupAction 2 (.error (.other "lookup failed")) =
      .fail (.other "lookup failed")) ∧
    (processOneArgAfterLookup 7
        { func_argument_id := 2, attribute_prototype_argument_id := none,
          attribute_func_input_location := .inputSocket 11 }
        (.error (.other "lookup failed")) updateFixture =
      (.error (.funcArgument (.other "lookup failed")), updateFixture)) ∧
    (processPrototypeArguments 7
        [{ func_argument_id := 2, attribute_prototype_argument_id := none,
           attribute_func_input_location := .staticArgument "###" }] updateFixture =
      (.error (.serdeJson "###"),
        (processOneArg 7
          { func_argument_id := 2, attribute_prototype_argument_id := none,
            attribute_func_input_location := .staticArgument "###" } updateFixture).2)) :=
  ⟨(c4_stale_arguments_skipped updateFixture 7 staleArgsFixture (.schemaVariant 100) 1
      rfl rfl rfl (by decide) (by decide)).1,
   (c4_stale_arguments_skipped updateFixture 7 staleArgsFixture (.schemaVariant 100) 1
      rfl rfl rfl (by decide) (by decide)).2.1,
   (c4_stale_arguments_skipped updateFixture 7 staleArgsFixture (.schemaVariant 100) 1
      rfl rfl rfl (by decide) (by decide)).2.2.2.1 2 (.other "lookup failed") (by decide),
   (c4_stale_arguments_skipped updateFixture 7 staleArgsFixture (.schemaVariant 100) 1
      rfl rfl rfl (by decide) (by decide)).2.2.2.2.1
      { func_argument_id := 2, attribute_prototype_argument_id := none,
        attribute_func_input_location := .inputSocket 11 }
      (.error (.other "lookup failed")) updateFixture (.other "lookup failed") (by decide),
   (c4_stale_arguments_skipped updateFixture 7 staleArgsFixture (.schemaVariant 100) 1
      rfl rfl rfl (by decide) (by decide)).2.2.2.2.2
      { func_argument_id := 2, attribute_prototype_argument_id := none,
        attribute_func_input_location := .staticArgument "###" }
      [] updateFixture _ (.serdeJson "###") rfl⟩

end Si

namespace Si

/-- Helper: inserting a type into the argument-types map keeps every entry
duplicate-free. -/
theorem insertArgType_nodup (m : ArgTypesMap) (k : FuncArgumentId) (t : String)
    (h : ∀ kv ∈ m, kv.2.Nodup) : ∀ kv ∈ insertArgType m k t, kv.2.Nodup := by
  unfold insertArgType
  by_cases hany : m.any (fun kv => kv.1 == k) = true
  · rw [if_pos hany]
    intro kv hkv
    obtain ⟨kv0, hkv0, hmap⟩ := List.mem_map.mp hkv
    by_cases hk : (kv0.1 == k) = true
    · rw [if_pos hk] at hmap
      rw [← hmap]
      by_cases hc : kv0.2.contains t = true
      · simp only [if_pos hc]
        exact h kv0 hkv0
      · simp only [if_neg hc]
        have ht : t ∉ kv0.2 := by simpa using hc
        simp [List.nodup_append, h kv0 hkv0, ht]
    · rw [if_neg hk] at hmap
      rw [← hmap]
      exact h kv0 hkv0
  · rw [if_neg hany]
    intro kv hkv
    rcases List.mem_append.mp hkv with hm | hm
    · exact h kv hm
    · simp only [List.mem_singleton] at hm
      rw [hm]
      simp

/-- Helper: one `collectArg` step preserves duplicate-freeness of both the
output-type list and every argument-type list. -/
theorem collectArg_nodup (s : Graph) (ol : AttributeFuncDestination)
    (acc acc' : ArgTypesMap × List String) (arg : AttributeArgumentBinding)
    (h2 : acc.2.Nodup) (h1 : ∀ kv ∈ acc.1, kv.2.Nodup)
    (h : collectArg s ol acc arg = .ok acc') :
    acc'.2.Nodup ∧ ∀ kv ∈ acc'.1, kv.2.Nodup := by
  have hout : ∀ (m : ArgTypesMap) (t : String),
      (∀ kv ∈ m, kv.2.Nodup) →
      acc' = (m, if acc.2.contains t then acc.2 else acc.2 ++ [t]) →
      acc'.2.Nodup ∧ ∀ kv ∈ acc'.1, kv.2.Nodup := by
    intro m t hm heq
    subst heq
    refine ⟨?_, hm⟩
    by_cases hc : acc.2.contains t = true
    · rw [if_pos hc]
      exact h2
    · rw [if_neg hc]
      have ht : t ∉ acc.2 := by simpa using hc
      simp [List.nodup_append, h2, ht]
  have hinsert := insertArgType_nodup acc.1 arg.func_argument_id
  unfold collectArg at h
  rcases harg : arg.attribute_func_input_location with p | i | v <;>
    rcases ol with op | os <;>
    simp only [harg, Bind.bind, Except.bind, pure, Except.pure] at h
  · rcases hp : Prop.get_by_id_or_error s p with e | pn
    · simp only [hp] at h
      exact Except.noConfusion h
    · simp only [hp] at h
      rcases hq : Prop.get_by_id_or_error s op with e | qn
      · simp only [hq] at h
        exact Except.noConfusion h
      · simp only [hq, Except.ok.injEq] at h
        exact hout _ _ (hinsert _ h1) h.symm
  · rcases hp : Prop.get_by_id_or_error s p with e | pn
    · simp only [hp] at h
      exact Except.noConfusion h
    · simp only [hp, Except.ok.injEq] at h
      exact hout _ _ (hinsert _ h1) h.symm
  · rcases hq : Prop.get_by_id_or_error s op with e | qn
    · simp only [hq] at h
      exact Except.noConfusion h
    · simp only [hq, Except.ok.injEq] at h
      exact hout _ _ h1 h.symm
  · simp only [Except.ok.injEq] at h
    exact hout _ _ h1 h.symm
  · rcases hq : Prop.get_by_id_or_error s op with e | qn
    · simp only [hq] at h
      exact Except.noConfusion h
    · simp only [hq, Except.ok.injEq] at h
      exact hout _ _ h1 h.symm
  · simp only [Except.ok.injEq] at h
    exact hout _ _ h1 h.symm

/-- Helper: the per-binding argument loop preserves duplicate-freeness. -/
theorem collectArgs_nodup (s : Graph) (ol : AttributeFuncDestination)
    (args : List AttributeArgumentBinding) :
    ∀ (acc acc' : ArgTypesMap × List String), acc.2.Nodup → (∀ kv ∈ acc.1, kv.2.Nodup) →
      collectArgs s ol acc args = .ok acc' →
      acc'.2.Nodup ∧ ∀ kv ∈ acc'.1, kv.2.Nodup := by
  induction args with
  | nil =>
    intro acc acc' h2 h1 h
    simp only [collectArgs, Except.ok.injEq] at h
    subst h
    exact ⟨h2, h1⟩
  | cons arg rest ih =>
    intro acc acc' h2 h1 h
    simp only [collectArgs, Bind.bind, Except.bind] at h
    rcases hstep : collectArg s ol acc arg with e | acc1 <;> rw [hstep] at h
    · cases h
    · obtain ⟨g2, g1⟩ := collectArg_nodup s ol acc acc1 arg h2 h1 hstep
      exact ih acc1 acc' g2 g1 h

/-- Helper: the whole binding loop preserves duplicate-freeness. -/
theorem collectBindings_nodup (s : Graph) (bindings : List FuncBinding) :
    ∀ (acc acc' : ArgTypesMap × List String), acc.2.Nodup → (∀ kv ∈ acc.1, kv.2.Nodup) →
      collectBindings s acc bindings = .ok acc' →
      acc'.2.Nodup ∧ ∀ kv ∈ acc'.1, kv.2.Nodup := by
  induction bindings with
  | nil =>
    intro acc acc' h2 h1 h
    simp only [collectBindings, Except.ok.injEq] at h
    subst h
    exact ⟨h2, h1⟩
  | cons b rest ih =>
    intro acc acc' h2 h1 h
    rcases b with ⟨battr⟩
    simp only [collectBindings, Bind.bind, Except.bind] at h
    rcases hstep : collectArgs s battr.output_location acc battr.argument_bindings
      with e | acc1 <;> rw [hstep] at h
    · cases h
    · obtain ⟨g2, g1⟩ := collectArgs_nodup s battr.output_location battr.argument_bindings
        acc acc1 h2 h1 hstep
      exact ih acc1 acc' g2 g1 h

end Si

namespace Si

/-- C6: `compile_attribute_types` mutates nothing (it returns the graph it
was given), deduplicates both the per-argument input types and the output
types, and on the two-prototype scenario produces a single input descriptor
line listing every distinct argument type observed across both prototypes,
with the output the union of the prop type and the "any" fallback for the
socket destination. -/
theorem c6_compile_attribute_types_spec :
    (∀ (func_id : FuncId) (s : Graph),
      (AttributeBinding.compile_attribute_types func_id s).2 = s) ∧
    (∀ (s : Graph) (bindings : List FuncBinding) (acc : ArgTypesMap × List String),
      collectBindings s ([], []) bindings = .ok acc →
      acc.2.Nodup ∧ ∀ kv ∈ acc.1, kv.2.Nodup) ∧
    (AttributeBinding.assemble_attribute_bindings compileFixture 1 =
      .ok
        [FuncBinding.attribute
          { func_id := 1, attribute_prototype_id := 7,
            eventual_parent := .schemaVariant 100, output_location := .prop 5,
            argument_bindings :=
              [{ func_argument_id := 2, attribute_prototype_argument_id := some 9,
                 attribute_func_input_location := .prop 3 }] },
         FuncBinding.attribute
          { func_id := 1, attribute_prototype_id := 8,
            eventual_parent := .schemaVariant 100, output_location := .outputSocket 6,
            argument_bindings :=
              [{ func_argument_id := 2, attribute_prototype_argument_id := some 10,
                 attribute_func_input_location := .prop 4 }] }]) ∧
    (collectBindings compileFixture ([], [])
        [FuncBinding.attribute
          { func_id := 1, attribute_prototype_id := 7,
            eventual_parent := .schemaVariant 100, output_location := .prop 5,
            argument_bindings :=
              [{ func_argument_id := 2, attribute_prototype_argument_id := some 9,
                 attribute_func_input_location := .prop 3 }] },
         FuncBinding.attribute
          { func_id := 1, attribute_prototype_id := 8,
            eventual_parent := .schemaVariant 100, output_location := .outputSocket 6,
            argument_bindings :=
              [{ func_argument_id := 2, attribute_prototype_argument_id := some 10,
                 attribute_func_input_location := .prop 4 }] }] =
      .ok ([(2, ["string", "number"])], ["string", "any"])) ∧
    (AttributeBinding.compile_attribute_types 1 compileFixture =
      (.ok
        "type Input = \x7b\narg1?: string | number | null;\n\x7d;\ntype Output = string | any;",
        compileFixture)) := by
  refine ⟨fun _ _ => rfl, ?_, rfl, rfl, rfl⟩
  intro s bindings acc h
  exact collectBindings_nodup s bindings ([], []) acc List.nodup_nil (by intro kv hkv; cases hkv)
    h

/-- C6 witness: the deduplication statement applied at the scenario's
concrete list of bindings. -/
theorem c6_compile_witness :
    (["string", "any"] : List String).Nodup ∧
      ∀ kv ∈ [((2 : FuncArgumentId), ["string", "number"])], kv.2.Nodup :=
  c6_compile_attribute_types_spec.2.1 compileFixture
    [FuncBinding.attribute
      { func_id := 1, attribute_prototype_id := 7,
        eventual_parent := .schemaVariant 100, output_location := .prop 5,
        argument_bindings :=
          [{ func_argument_id := 2, attribute_prototype_argument_id := some 9,
             attribute_func_input_location := .prop 3 }] },
     FuncBinding.attribute
      { func_id := 1, attribute_prototype_id := 8,
        eventual_parent := .schemaVariant 100, output_location := .outputSocket 6,
        argument_bindings :=
          [{ func_argument_id := 2, attribute_prototype_argument_id := some 10,
             attribute_func_input_location := .prop 4 }] }]
    ([(2, ["string", "number"])], ["string", "any"]) rfl

end Si
